import Mathlib

/-!
Shallow embedding of the scene-manager core of the Ray renderer
(`src/internal/SceneGPU.h`, `src/internal/Dx/BufferDX.cpp`) and proofs
about it.  Floating-point scalars are modelled as rationals; GPU machine
integers are modelled as `Nat` (no arithmetic in the embedded fragments
overflows their 32-bit ranges for the inputs considered here, and bit
mask operations use `&&&`/`|||` directly on `Nat`).
-/

set_option maxHeartbeats 1000000

namespace RayModel

/-- Shading-node kinds of `material_t` (`eShadingNode`). -/
inductive eShadingNode where
  | Diffuse | Glossy | Refractive | Emissive | Mix | Transparent | Principled
  deriving DecidableEq, Repr

/-- Light kinds (`LIGHT_TYPE_*` constants). -/
inductive eLightType where
  | Dir | Sphere | Rect | Disk | Line | Tri | Env
  deriving DecidableEq, Repr

/-- Sentinel `InvalidTextureHandle._index` (all-ones 32-bit value). -/
def InvalidTextureIndex : Nat := 0xffffffff

/-- Sentinel `InvalidMaterialHandle._index`. -/
def InvalidMaterialIndex : Nat := 0xffffffff

/-- Modelled from the spec: the material flag bits `MAT_FLAG_MULT_IMPORTANCE`
and `MAT_FLAG_MIX_ADD` are declared in a header that is not part of the
provided sources; the spec lists them as distinct flag bits of the packed
`flags` field, so they are modelled as two distinct single-bit masks. -/
def MAT_FLAG_MULT_IMPORTANCE : Nat := 1

/-- Modelled from the spec: second material flag bit (see
`MAT_FLAG_MULT_IMPORTANCE`). -/
def MAT_FLAG_MIX_ADD : Nat := 2

/-- Modelled from the spec: `tri_mat_data_t` stores front/back material
indices of 14 bits each (the source asserts `_index < (1 << 14)`) with a
per-side `MATERIAL_SOLID_BIT` flag above them. -/
def MATERIAL_SOLID_BIT : Nat := 0x8000

/-- Modelled from the spec: mask extracting the 14-bit material index from
a `tri_mat_data_t` side field. -/
def MATERIAL_INDEX_BITS : Nat := 0x3fff

/-- The subset of `material_t` fields read or written by the operations
verified here (`type`, `flags`, `strength`, `base_color`, the
`MIX_MAT1`/`MIX_MAT2` texture slots and the base-texture slot).  The
remaining packed unorm fields are never read by the embedded operations. -/
structure material_t where
  type : eShadingNode := eShadingNode.Diffuse
  flags : Nat := 0
  strength : Rat := 0
  base_color0 : Rat := 0
  base_color1 : Rat := 0
  base_color2 : Rat := 0
  base_texture : Nat := InvalidTextureIndex
  mix_mat1 : Nat := 0
  mix_mat2 : Nat := 0
  deriving DecidableEq, Repr

instance : Inhabited material_t := ⟨{}⟩

/-- `shading_node_desc_t` (fields used by `AddMaterial_nolock`). -/
structure shading_node_desc_t where
  type : eShadingNode := eShadingNode.Diffuse
  base_color0 : Rat := 0
  base_color1 : Rat := 0
  base_color2 : Rat := 0
  base_texture : Nat := InvalidTextureIndex
  strength : Rat := 1
  ior : Rat := 1
  mix_materials1 : Nat := InvalidMaterialIndex
  mix_materials2 : Nat := InvalidMaterialIndex
  mix_add : Bool := false
  multiple_importance : Bool := false
  deriving Repr

/-- `principled_mat_desc_t` (fields used by `AddMaterial(principled)`). -/
structure principled_mat_desc_t where
  base_color0 : Rat := 0
  base_color1 : Rat := 0
  base_color2 : Rat := 0
  base_texture : Nat := InvalidTextureIndex
  emission_color0 : Rat := 0
  emission_color1 : Rat := 0
  emission_color2 : Rat := 0
  emission_texture : Nat := InvalidTextureIndex
  emission_strength : Rat := 1
  alpha : Rat := 1
  alpha_texture : Nat := InvalidTextureIndex
  deriving Repr

/-- `Scene::AddMaterial_nolock`: fills a `material_t` from the descriptor
(per-type fields exactly as in the source switch) and appends it to the
material store, returning the fresh index (`SparseStorage::push` with no
prior erasures returns the next dense index). -/
def addMaterial_nolock (mats : List material_t) (m : shading_node_desc_t) :
    List material_t × Nat :=
  let mat : material_t :=
    { type := m.type
      base_texture := m.base_texture
      base_color0 := m.base_color0
      base_color1 := m.base_color1
      base_color2 := m.base_color2
      flags := 0 }
  let mat : material_t :=
    match m.type with
    | eShadingNode.Emissive =>
        { mat with strength := m.strength
                   flags := mat.flags |||
                     (if m.multiple_importance then MAT_FLAG_MULT_IMPORTANCE else 0) }
    | eShadingNode.Mix =>
        { mat with strength := m.strength
                   mix_mat1 := m.mix_materials1
                   mix_mat2 := m.mix_materials2
                   flags := mat.flags ||| (if m.mix_add then MAT_FLAG_MIX_ADD else 0) }
    | _ => mat
  (mats ++ [mat], mats.length)

/-- `Scene::AddMaterial(const principled_mat_desc_t &)`: pushes the
`Principled` root, then optionally an `Emissive` node wrapped via a
`Mix`(MIX_ADD) node, then optionally a `Transparent` node wrapped via a
regular `Mix` node — except that when `alpha == 0` the transparent node
replaces the root directly.  Returns the updated store and the outermost
node index. -/
def addMaterialPrincipled (mats : List material_t) (m : principled_mat_desc_t) :
    List material_t × Nat :=
  let main_mat : material_t :=
    { type := eShadingNode.Principled
      base_texture := m.base_texture
      base_color0 := m.base_color0
      base_color1 := m.base_color1
      base_color2 := m.base_color2
      flags := 0 }
  let mats1 := mats ++ [main_mat]
  let root_node := mats.length
  let st_em :=
    if m.emission_strength > 0 ∧
        (m.emission_color0 > 0 ∨ m.emission_color1 > 0 ∨ m.emission_color2 > 0) then
      let emissive_desc : shading_node_desc_t :=
        { type := eShadingNode.Emissive
          base_color0 := m.emission_color0
          base_color1 := m.emission_color1
          base_color2 := m.emission_color2
          base_texture := m.emission_texture
          strength := m.emission_strength }
      let r := addMaterial_nolock mats1 emissive_desc
      (r.1, r.2)
    else (mats1, InvalidMaterialIndex)
  let mats2 := st_em.1
  let emissive_node := st_em.2
  let st_tr :=
    if m.alpha ≠ 1 ∨ m.alpha_texture ≠ InvalidTextureIndex then
      let transparent_desc : shading_node_desc_t := { type := eShadingNode.Transparent }
      let r := addMaterial_nolock mats2 transparent_desc
      (r.1, r.2)
    else (mats2, InvalidMaterialIndex)
  let mats3 := st_tr.1
  let transparent_node := st_tr.2
  let st4 :=
    if emissive_node ≠ InvalidMaterialIndex then
      if root_node = InvalidMaterialIndex then (mats3, emissive_node)
      else
        let mix_node : shading_node_desc_t :=
          { type := eShadingNode.Mix
            base_texture := InvalidTextureIndex
            strength := 1/2
            ior := 0
            mix_add := true
            mix_materials1 := root_node
            mix_materials2 := emissive_node }
        addMaterial_nolock mats3 mix_node
    else (mats3, root_node)
  let mats4 := st4.1
  let root4 := st4.2
  if transparent_node ≠ InvalidMaterialIndex then
    if root4 = InvalidMaterialIndex ∨ m.alpha = 0 then (mats4, transparent_node)
    else
      let mix_node : shading_node_desc_t :=
        { type := eShadingNode.Mix
          base_texture := m.alpha_texture
          strength := m.alpha
          ior := 0
          mix_materials1 := transparent_node
          mix_materials2 := root4 }
      addMaterial_nolock mats4 mix_node
  else (mats4, root4)

/-- `environment_t` (fields read by `Finalize`). -/
structure environment_t where
  env_col0 : Rat := 0
  env_col1 : Rat := 0
  env_col2 : Rat := 0
  env_map : Nat := InvalidTextureIndex
  multiple_importance : Bool := false
  deriving Repr

/-- The condition in `Scene::Finalize` under which
`PrepareEnvMapQTree_nolock` is invoked: the outer branch requires
`multiple_importance` and all three env-colour channels strictly positive,
and the inner branch requires a valid environment map. -/
def finalizePreparesQTree (env : environment_t) : Bool :=
  if env.multiple_importance ∧ 0 < env.env_col0 ∧ 0 < env.env_col1 ∧ 0 < env.env_col2 then
    if env.env_map ≠ InvalidTextureIndex then true else false
  else false

/-- The resolution loop of `Scene::PrepareEnvMapQTree_nolock`:
`res = 1; while (2 * res < d) res *= 2;`.  Fuel-based translation; any
fuel `≥ d` is sufficient (proved below). -/
def qtreeResLoop : Nat → Nat → Nat → Nat
  | 0, _, res => res
  | fuel + 1, d, res => if 2 * res < d then qtreeResLoop fuel d (2 * res) else res

/-- Resolution of the environment quad-tree for a map whose smaller
dimension is `d` (`env_map_qtree_.res` after the loop). -/
def qtreeRes (d : Nat) : Nat := qtreeResLoop d d 1

/-- GPU resource states (`eResState`, the subset used by buffer copies). -/
inductive eResState where
  | Undefined | CopySrc | CopyDst | UnorderedAccess | ShaderRead
  deriving DecidableEq, Repr

/-- Commands recorded on a command list by the buffer-copy helpers: a
state-transition barrier for one of the two participating buffers
(`src` = the buffer copied from, `dst` = the buffer copied into), or the
copy itself. -/
inductive BufCmd where
  | barrierSrc (before after : eResState)
  | barrierDst (before after : eResState)
  | copyRegion
  deriving DecidableEq, Repr

/-- `Dx::Buffer::AllocSubRegion` (the `init_buf` path): in the D3D12
source the barrier emission and the `CopyBuffer` command are commented
out; when the sub-allocation succeeds only the two `resource_state`
fields are updated.  Returns (final init-buffer state, final this-buffer
state, recorded commands). -/
def allocSubRegionInit (allocSuccess : Bool) (initState thisState : eResState) :
    eResState × eResState × List BufCmd :=
  if allocSuccess then (eResState.CopySrc, eResState.CopyDst, [])
  else (initState, thisState, [])

/-- `Dx::Buffer::UpdateSubRegion`: emits a transition barrier for each
buffer whose tracked state differs from the required copy state (the
`Undefined` exemption is commented out in the source), records the copy,
and sets both state fields. -/
def updateSubRegion (initState thisState : eResState) :
    eResState × eResState × List BufCmd :=
  let b1 : List BufCmd :=
    if initState ≠ eResState.CopySrc then
      [BufCmd.barrierSrc initState eResState.CopySrc] else []
  let b2 : List BufCmd :=
    if thisState ≠ eResState.CopyDst then
      [BufCmd.barrierDst thisState eResState.CopyDst] else []
  (eResState.CopySrc, eResState.CopyDst, b1 ++ b2 ++ [BufCmd.copyRegion])

/-- `Dx::CopyBufferToBuffer`: same barrier/copy/state discipline as
`UpdateSubRegion`, with `src`/`dst` in place of `init_buf`/`this`. -/
def copyBufferToBuffer (srcState dstState : eResState) :
    eResState × eResState × List BufCmd :=
  let b1 : List BufCmd :=
    if srcState ≠ eResState.CopySrc then
      [BufCmd.barrierSrc srcState eResState.CopySrc] else []
  let b2 : List BufCmd :=
    if dstState ≠ eResState.CopyDst then
      [BufCmd.barrierDst dstState eResState.CopyDst] else []
  (eResState.CopySrc, eResState.CopyDst, b1 ++ b2 ++ [BufCmd.copyRegion])

/-- Log levels of the `ILog` interface. -/
inductive LogLevel where
  | Info | Warning | Error
  deriving DecidableEq, Repr

/-- `tex_desc_t` (fields read by the modelled fragment of
`AddAtlasTexture_nolock`). -/
structure tex_desc_t where
  w : Nat := 0
  h : Nat := 0
  is_srgb : Bool := false
  is_normalmap : Bool := false
  generate_mipmaps : Bool := false
  force_no_compression : Bool := false
  deriving Repr

/-- `Scene::AddAtlasTexture_nolock`, first-mip allocation outcome: the
atlas allocator (`TextureAtlas::Allocate`, not part of the provided
sources) either returns a page and position or fails (`page == -1`,
modelled as `none`).  On failure the function returns
`InvalidTextureHandle` having logged nothing; on success it proceeds and
logs two `Info` lines.  Returns the handle index and the levels of the
log entries emitted, `textures_size` being the current size of the
texture store (the fresh handle index on success). -/
def addAtlasTexture (alloc : Option (Nat × Nat × Nat)) (textures_size : Nat)
    (_t : tex_desc_t) : Nat × List LogLevel :=
  match alloc with
  | none => (InvalidTextureIndex, [])
  | some _ => (textures_size, [LogLevel.Info, LogLevel.Info])

/-- `directional_light_desc_t`. -/
structure directional_light_desc_t where
  color0 : Rat := 0
  color1 : Rat := 0
  color2 : Rat := 0
  direction0 : Rat := 0
  direction1 : Rat := 0
  direction2 : Rat := 0
  angle : Rat := 0
  cast_shadow : Bool := true
  visible : Bool := true
  deriving Repr

/-- `light_t` (tagged union flattened; per-kind fields used here are the
triangle fields `tri_index`/`xform_index` and the directional fields
`dir`/`angle`). -/
structure light_t where
  type : eLightType := eLightType.Dir
  cast_shadow : Bool := false
  visible : Bool := false
  sky_portal : Bool := false
  col0 : Rat := 0
  col1 : Rat := 0
  col2 : Rat := 0
  dir0 : Rat := 0
  dir1 : Rat := 0
  dir2 : Rat := 0
  angle : Rat := 0
  tri_index : Nat := 0
  xform_index : Nat := 0
  deriving DecidableEq, Repr

instance : Inhabited light_t := ⟨{}⟩

/-- The light-related scene state touched by `AddLight`. -/
structure LightsState where
  lights : List light_t := []
  li_indices : List Nat := []
  visible_lights : List Nat := []
  deriving Repr

/-- `Scene::AddLight(const directional_light_desc_t &)`.  `piq` models the
float constant `PI` and `tanq` the `std::tan` evaluation (transcendental,
kept abstract); the record always stores `visible = false`, yet the fresh
index is appended to `visible_lights_` whenever the descriptor asks for
visibility. -/
def addLightDirectional (piq : Rat) (tanq : Rat → Rat) (st : LightsState)
    (_l : directional_light_desc_t) : LightsState × Nat :=
  let angle := _l.angle * piq / 360
  let col :=
    if angle ≠ 0 then
      let radius := tanq angle
      let mul := 1 / (piq * radius * radius)
      (_l.color0 * mul, _l.color1 * mul, _l.color2 * mul)
    else (_l.color0, _l.color1, _l.color2)
  let l : light_t :=
    { type := eLightType.Dir
      cast_shadow := _l.cast_shadow
      visible := false
      col0 := col.1
      col1 := col.2.1
      col2 := col.2.2
      dir0 := -_l.direction0
      dir1 := -_l.direction1
      dir2 := -_l.direction2
      angle := angle }
  let light_index := st.lights.length
  ({ lights := st.lights ++ [l]
     li_indices := st.li_indices ++ [light_index]
     visible_lights :=
       st.visible_lights ++ (if _l.visible then [light_index] else []) },
   light_index)

/-- A 3-component float vector (bounding-box corners). -/
structure Vec3q where
  x : Rat := 0
  y : Rat := 0
  z : Rat := 0
  deriving DecidableEq, Repr

instance : Inhabited Vec3q := ⟨{}⟩

/-- `mesh_t` (bounding box and the slices into the global arrays). -/
structure mesh_t where
  bbox_min : Vec3q := {}
  bbox_max : Vec3q := {}
  node_index : Nat := 0
  node_count : Nat := 0
  tris_index : Nat := 0
  tris_count : Nat := 0
  vert_index : Nat := 0
  vert_count : Nat := 0
  deriving DecidableEq, Repr

instance : Inhabited mesh_t := ⟨{}⟩

/-- `tri_mat_data_t`: per-triangle front/back material indices, each with
`MATERIAL_SOLID_BIT` above the 14 index bits. -/
structure tri_mat_data_t where
  front_mi : Nat := 0
  back_mi : Nat := 0
  deriving DecidableEq, Repr

instance : Inhabited tri_mat_data_t := ⟨{}⟩

/-- `mesh_instance_t`: mesh handle, transform handle and cached world AABB. -/
structure mesh_instance_t where
  mesh_index : Nat := 0
  tr_index : Nat := 0
  bbox_min : Vec3q := {}
  bbox_max : Vec3q := {}
  deriving DecidableEq, Repr

instance : Inhabited mesh_instance_t := ⟨{}⟩

/-- `LEAF_NODE_BIT` marking a leaf `bvh_node_t`. -/
def LEAF_NODE_BIT : Nat := 0x80000000

/-- `bvh_node_t`: AABB plus either `(left_child, right_child)` or
`(prim_index | LEAF_NODE_BIT, prim_count)`; the source uses a union, so
`prim_index` aliases `left_child` and `prim_count` aliases `right_child`. -/
structure bvh_node_t where
  bbox_min : Vec3q := {}
  bbox_max : Vec3q := {}
  prim_index : Nat := 0
  prim_count : Nat := 0
  deriving DecidableEq, Repr

instance : Inhabited bvh_node_t := ⟨{}⟩

/-- `prim_t` fed to the SAH builder (the TLAS path fills the three index
fields with zeros and the AABB with the instance's world AABB). -/
structure prim_t where
  i0 : Nat := 0
  i1 : Nat := 0
  i2 : Nat := 0
  bbox_min : Vec3q := {}
  bbox_max : Vec3q := {}
  deriving DecidableEq, Repr

instance : Inhabited prim_t := ⟨{}⟩

/-- The scene-manager state touched by `AddMeshInstance`,
`SetMeshInstanceTransform` and `RebuildTLAS_nolock`.  `tr_count` models
the `transforms_` sparse store, whose `emplace()` returns consecutive
fresh indices while no transform is ever erased (no removal operation in
scope touches it). -/
structure SceneState where
  materials : List material_t := []
  meshes : List mesh_t := []
  tri_materials : List tri_mat_data_t := []
  lights : List light_t := []
  li_indices : List Nat := []
  tr_count : Nat := 0
  mesh_instances : List mesh_instance_t := []
  nodes : List bvh_node_t := []
  mi_indices : List Nat := []
  macro_nodes_start : Nat := 0xffffffff
  macro_nodes_count : Nat := 0
  tlas_root_node : bvh_node_t := {}
  deriving Repr

/-- `Scene::RemoveNodes_nolock`: the whole erase-and-reindex body is
commented out in the source (only the empty-range early return remains),
so the function leaves the state unchanged. -/
def removeNodes_nolock (st : SceneState) (_node_index _node_count : Nat) : SceneState :=
  st

/-- The child-offset fixup applied to freshly built TLAS nodes before they
are appended: interior nodes get both child indices shifted by the current
node-array size. -/
def offsetTLASNode (base : Nat) (n : bvh_node_t) : bvh_node_t :=
  if n.prim_index &&& LEAF_NODE_BIT = 0 then
    { n with prim_index := n.prim_index + base, prim_count := n.prim_count + base }
  else n

/-- `Scene::RebuildTLAS_nolock`, parametric in the SAH builder
(`PreprocessPrims_SAH` lives in `BVHSplit.h`, outside the provided
sources); the builder returns the fresh node array and the primitive
permutation, and the node count stored in `macro_nodes_count_` is the
number of nodes it produced. -/
def rebuildTLAS_nolock (build : List prim_t → List bvh_node_t × List Nat)
    (st : SceneState) : SceneState :=
  let st1 := removeNodes_nolock st st.macro_nodes_start st.macro_nodes_count
  let st1 := { st1 with mi_indices := [] }
  let primitives : List prim_t := st1.mesh_instances.map (fun mi =>
    { i0 := 0, i1 := 0, i2 := 0, bbox_min := mi.bbox_min, bbox_max := mi.bbox_max })
  let r := build primitives
  let offset_nodes := r.1.map (offsetTLASNode st1.nodes.length)
  { st1 with
    macro_nodes_start := st1.nodes.length
    macro_nodes_count := r.1.length
    nodes := st1.nodes ++ offset_nodes
    mi_indices := r.2
    tlas_root_node := offset_nodes.headD {} }

/-- `Scene::SetMeshInstanceTransform_nolock`.  The world AABB is computed
by `TransformBoundingBox` (float matrix math outside the provided
sources); it is passed in as `world_bbox`.
Modelled from the spec: a mesh instance's cached world AABB equals
`Transform(xform, mesh.bbox)`. -/
def setMeshInstanceTransform_nolock (build : List prim_t → List bvh_node_t × List Nat)
    (world_bbox : Vec3q × Vec3q) (st : SceneState) (mi_handle : Nat) : SceneState :=
  let mi := st.mesh_instances.getD mi_handle {}
  let mi := { mi with bbox_min := world_bbox.1, bbox_max := world_bbox.2 }
  let st := { st with mesh_instances := st.mesh_instances.set mi_handle mi }
  rebuildTLAS_nolock build st

/-- The emissive-triangle test of `Scene::AddMeshInstance`: the light
pushed for triangle `tri` when the material directly referenced by the
triangle's front material index is `Emissive` with
`MAT_FLAG_MULT_IMPORTANCE`, carrying the instance transform index and
`base_color * strength`. -/
def emissiveTriLight (st : SceneState) (tr_index tri : Nat) : Option light_t :=
  let tri_mat := st.tri_materials.getD tri {}
  let front_mat := st.materials.getD (tri_mat.front_mi &&& MATERIAL_INDEX_BITS) {}
  if front_mat.type = eShadingNode.Emissive ∧
      front_mat.flags &&& MAT_FLAG_MULT_IMPORTANCE ≠ 0 then
    some { type := eLightType.Tri
           cast_shadow := true
           visible := false
           sky_portal := false
           tri_index := tri
           xform_index := tr_index
           col0 := front_mat.base_color0 * front_mat.strength
           col1 := front_mat.base_color1 * front_mat.strength
           col2 := front_mat.base_color2 * front_mat.strength }
  else none

/-- The triangle range scanned by `AddMeshInstance`:
`tri = vert_index/3 .. (vert_index+vert_count)/3 - 1`. -/
def meshTriRange (m : mesh_t) : List Nat :=
  (List.range ((m.vert_index + m.vert_count) / 3 - m.vert_index / 3)).map
    (fun k => m.vert_index / 3 + k)

/-- `Scene::AddMeshInstance`: allocates a fresh transform, pushes the
instance, appends one triangle light per qualifying triangle of the mesh
(together with its `li_indices_` entry), then delegates to
`SetMeshInstanceTransform_nolock` (which rebuilds the TLAS). -/
def addMeshInstance (build : List prim_t → List bvh_node_t × List Nat)
    (world_bbox : Vec3q × Vec3q) (st : SceneState) (mesh : Nat) : SceneState × Nat :=
  let tr := st.tr_count
  let st := { st with tr_count := st.tr_count + 1 }
  let mi : mesh_instance_t := { mesh_index := mesh, tr_index := tr }
  let mi_index := st.mesh_instances.length
  let st := { st with mesh_instances := st.mesh_instances ++ [mi] }
  let m := st.meshes.getD mesh {}
  let new_lights := (meshTriRange m).filterMap (emissiveTriLight st tr)
  let base := st.lights.length
  let st := { st with
    lights := st.lights ++ new_lights
    li_indices := st.li_indices ++ (List.range new_lights.length).map (· + base) }
  (setMeshInstanceTransform_nolock build world_bbox st mi_index, mi_index)

/-- Decidable well-ordering of a material list: every stored `Mix` node
references children with strictly smaller indices.  This is the shape
produced by the builder API: trees are composed root-up, children are
pushed before their parents, and no operation ever rewrites a stored node
(design note: cyclic references in material trees are disallowed by
construction). -/
def orderedMats (mats : List material_t) : Prop :=
  ∀ i < mats.length, (mats.getD i {}).type = eShadingNode.Mix →
    (mats.getD i {}).mix_mat1 < i ∧ (mats.getD i {}).mix_mat2 < i

instance (mats : List material_t) : Decidable (orderedMats mats) :=
  Nat.decidableBallLT _ _

/-- A material store bundled with its well-ordering evidence (stated over
`getD`; out-of-range lookups give the inert default node, so the bound is
implied). -/
structure MatStore where
  mats : List material_t
  ordered : ∀ i, (mats.getD i {}).type = eShadingNode.Mix →
    (mats.getD i {}).mix_mat1 < i ∧ (mats.getD i {}).mix_mat2 < i

/-- Builds a `MatStore` from a list checked by `orderedMats`. -/
def MatStore.ofList (mats : List material_t) (h : orderedMats mats) : MatStore :=
  ⟨mats, fun i hmix => by
    by_cases hi : i < mats.length
    · exact h i hi hmix
    · rw [List.getD_eq_default _ _ (Nat.le_of_not_lt hi)] at hmix
      exact absurd hmix (by decide)⟩

/-- Termination measure for the explicit-stack material walk. -/
def stackMeasure (stack : List Nat) : Nat := (stack.map (fun i => 3 ^ i)).sum

/-- The explicit-stack walk of `Scene::AddMesh` computing the per-side
solid flag: pop a node; a `Mix` node pushes its two children
(`MIX_MAT1` then `MIX_MAT2`, so `MIX_MAT2` is popped first); a
`Transparent` node makes the side non-solid and stops; everything else is
an inert leaf.  Terminates because `Mix` children precede their parent
in the store. -/
def walkSolid (s : MatStore) : List Nat → Bool
  | [] => true
  | i :: rest =>
    if hmix : (s.mats.getD i {}).type = eShadingNode.Mix then
      walkSolid s ((s.mats.getD i {}).mix_mat2 :: (s.mats.getD i {}).mix_mat1 :: rest)
    else if (s.mats.getD i {}).type = eShadingNode.Transparent then false
    else walkSolid s rest
termination_by stack => stackMeasure stack
decreasing_by
  · have hlt := s.ordered i hmix
    simp only [stackMeasure, List.map_cons, List.sum_cons]
    have e1 : 3 ^ (s.mats.getD i {}).mix_mat1 ≤ 3 ^ (i - 1) :=
      Nat.pow_le_pow_right (by norm_num) (Nat.le_sub_one_of_lt hlt.1)
    have e2 : 3 ^ (s.mats.getD i {}).mix_mat2 ≤ 3 ^ (i - 1) :=
      Nat.pow_le_pow_right (by norm_num) (Nat.le_sub_one_of_lt hlt.2)
    have e3 : 2 * 3 ^ (i - 1) < 3 ^ i := by
      have hi1 : i - 1 + 1 = i := by omega
      have h3 : (3 : Nat) ^ i = 3 ^ (i - 1) * 3 := by
        conv_lhs => rw [← hi1]
        rw [pow_succ]
      have hp : 0 < 3 ^ (i - 1) := Nat.pos_pow_of_pos _ (by norm_num)
      omega
    omega
  · simp only [stackMeasure, List.map_cons, List.sum_cons]
    have : 0 < 3 ^ i := Nat.pos_pow_of_pos _ (by norm_num)
    omega

/-- Reference predicate (follows the spec's words): the material tree
rooted at `i` contains a leaf satisfying `p`, where the tree of a `Mix`
node consists of the trees of its two children and any other node is a
leaf. -/
def treeContains (s : MatStore) (p : material_t → Bool) : Nat → Bool
  | i =>
    if hmix : (s.mats.getD i {}).type = eShadingNode.Mix then
      treeContains s p (s.mats.getD i {}).mix_mat1 ||
      treeContains s p (s.mats.getD i {}).mix_mat2
    else p (s.mats.getD i {})
termination_by i => i
decreasing_by
  · exact (s.ordered i hmix).1
  · exact (s.ordered i hmix).2

/-- Leaf predicate: `Transparent` node (the walk of `AddMesh`). -/
def isTransparentLeaf (m : material_t) : Bool := m.type = eShadingNode.Transparent

/-- Leaf predicate: `Emissive` node with `MAT_FLAG_MULT_IMPORTANCE`
(the emissive-triangle discovery of the spec's wording). -/
def isEmissiveMI (m : material_t) : Bool :=
  m.type = eShadingNode.Emissive && m.flags &&& MAT_FLAG_MULT_IMPORTANCE ≠ 0

/-- `shape_desc_t` (a surface group of a mesh). -/
structure shape_desc_t where
  front_mat : Nat := 0
  back_mat : Nat := 0
  vtx_start : Nat := 0
  vtx_count : Nat := 0
  deriving Repr

/-- The `tri_mat_data_t` value written by `AddMesh` for every triangle of
one shape: the 14-bit material index of each side, with
`MATERIAL_SOLID_BIT` or-ed in when the walk found no `Transparent` node. -/
def shapeTriMat (s : MatStore) (sh : shape_desc_t) : tri_mat_data_t :=
  { front_mi := sh.front_mat |||
      (if walkSolid s [sh.front_mat] then MATERIAL_SOLID_BIT else 0)
    back_mi := sh.back_mat |||
      (if walkSolid s [sh.back_mat] then MATERIAL_SOLID_BIT else 0) }

/-- The triangle indices written by the per-shape loop of `AddMesh`
(`for i = vtx_start; i < vtx_start + vtx_count; i += 3` writes slot
`i / 3`). -/
def shapeTriPositions (vtx_start vtx_count : Nat) : List Nat :=
  (List.range ((vtx_count + 2) / 3)).map (fun k => (vtx_start + 3 * k) / 3)

/-- The per-shape write loop of `AddMesh` over the fresh
`new_tri_materials` array. -/
def writeShapeTriMats (s : MatStore) (sh : shape_desc_t)
    (arr : List tri_mat_data_t) : List tri_mat_data_t :=
  (shapeTriPositions sh.vtx_start sh.vtx_count).foldl
    (fun a tri => a.set tri (shapeTriMat s sh)) arr

/-- One cell of the environment quad-tree: four luminance components, one
per sub-quadrant (the source's `simd_fvec4`). -/
structure Vec4q where
  c0 : Rat := 0
  c1 : Rat := 0
  c2 : Rat := 0
  c3 : Rat := 0
  deriving DecidableEq, Repr

instance : Inhabited Vec4q := ⟨{}⟩

/-- Component access (`operator[]`). -/
def Vec4q.get (v : Vec4q) : Nat → Rat
  | 0 => v.c0
  | 1 => v.c1
  | 2 => v.c2
  | 3 => v.c3
  | _ => 0

/-- Sum of the four components (the `res_lum` accumulation). -/
def Vec4q.total (v : Vec4q) : Rat := v.c0 + v.c1 + v.c2 + v.c3

/-- One parent cell of the next-coarser quad-tree level: component
`(x&1) | ((y&1)<<1)` holds the four-component sum of child cell
`(2qx + (x&1), 2qy + (y&1))` of the previous level (side `2*halfSide`). -/
def qtreeParentCell (prev : List Vec4q) (halfSide qx qy : Nat) : Vec4q :=
  { c0 := (prev.getD ((2 * qy + 0) * (2 * halfSide) + (2 * qx + 0)) {}).total
    c1 := (prev.getD ((2 * qy + 0) * (2 * halfSide) + (2 * qx + 1)) {}).total
    c2 := (prev.getD ((2 * qy + 1) * (2 * halfSide) + (2 * qx + 0)) {}).total
    c3 := (prev.getD ((2 * qy + 1) * (2 * halfSide) + (2 * qx + 1)) {}).total }

/-- The next-coarser level built from `prev` (side `2*halfSide`), stored
row-major as in the source (`qy * cur_res/2 + qx`). -/
def mkMip (prev : List Vec4q) (halfSide : Nat) : List Vec4q :=
  (List.range (halfSide * halfSide)).map
    (fun idx => qtreeParentCell prev halfSide (idx % halfSide) (idx / halfSide))

/-- The `while (cur_res > 1)` loop of `PrepareEnvMapQTree_nolock` building
the upper levels; fuel-based translation of the halving loop (any fuel
`≥ log2 curRes` suffices). -/
def qtreeUpperLevels : Nat → List Vec4q → Nat → List (List Vec4q)
  | 0, _, _ => []
  | fuel + 1, prev, curRes =>
    if 1 < curRes then
      let m := mkMip prev (curRes / 2)
      m :: qtreeUpperLevels fuel m (curRes / 2)
    else []

/-- The full mip pyramid: level 0 plus the upper levels (`side0` is the
side of level 0, i.e. `env_map_qtree_.res / 2`). -/
def qtreeMips (mip0 : List Vec4q) (side0 : Nat) : List (List Vec4q) :=
  mip0 :: qtreeUpperLevels side0 mip0 side0

/-- `total_lum`: sum of every component of level 0. -/
def totalLum (mip0 : List Vec4q) : Rat := (mip0.map Vec4q.total).sum

/-- Whether a cell has some component above the threshold (the
`simd_cast(cur_mip[...] > t)` mask test). -/
def cellAbove (t : Rat) (v : Vec4q) : Bool :=
  decide (t < v.c0) || decide (t < v.c1) || decide (t < v.c2) || decide (t < v.c3)

/-- `subdivision_required` for one level. -/
def mipRequiresSubdiv (t : Rat) (mip : List Vec4q) : Bool := mip.any (cellAbove t)

/-- The downward scan computing `the_last_required_lod`: starting from the
coarsest level, stop at the first level none of whose components exceeds
the threshold; `0` if every level requires subdivision (or there are no
levels). -/
def lastRequiredLodGo (mips : List (List Vec4q)) (t : Rat) : Nat → Nat
  | 0 => 0
  | n + 1 =>
    if mipRequiresSubdiv t (mips.getD n []) then lastRequiredLodGo mips t n else n

/-- `the_last_required_lod` after the scan. -/
def lastRequiredLod (mips : List (List Vec4q)) (t : Rat) : Nat :=
  lastRequiredLodGo mips t mips.length

/-- `LumFractThreshold`. -/
def LumFractThreshold : Rat := 1 / 100

/-- The trimmed pyramid: the drop loop removes the finest level
(`mips[0]`) `the_last_required_lod` times. -/
def qtreeTrimmed (mip0 : List Vec4q) (side0 : Nat) : List (List Vec4q) :=
  let mips := qtreeMips mip0 side0
  mips.drop (lastRequiredLod mips (LumFractThreshold * totalLum mip0))

/-- Closed-form companion of `qtreeUpperLevels` indexed by the exponent of
the (power-of-two) resolution, used to reason by induction on levels. -/
def qtreePyramidSpec : Nat → List Vec4q → List (List Vec4q)
  | 0, _ => []
  | s + 1, prev => mkMip prev (2 ^ s) :: qtreePyramidSpec s (mkMip prev (2 ^ s))

/-- The emission condition of `AddMaterial(principled)`: positive strength
and non-black emission colour. -/
def emissionEnabled (m : principled_mat_desc_t) : Prop :=
  m.emission_strength > 0 ∧
    (m.emission_color0 > 0 ∨ m.emission_color1 > 0 ∨ m.emission_color2 > 0)

instance (m : principled_mat_desc_t) : Decidable (emissionEnabled m) := by
  unfold emissionEnabled; infer_instance

/-- The transparency condition of `AddMaterial(principled)`: non-unit alpha
or an alpha texture. -/
def alphaEnabled (m : principled_mat_desc_t) : Prop :=
  m.alpha ≠ 1 ∨ m.alpha_texture ≠ InvalidTextureIndex

instance (m : principled_mat_desc_t) : Decidable (alphaEnabled m) := by
  unfold alphaEnabled; infer_instance

/-- The `Principled` root record pushed by `AddMaterial(principled)`. -/
def principledMainMat (m : principled_mat_desc_t) : material_t :=
  { type := eShadingNode.Principled
    base_texture := m.base_texture
    base_color0 := m.base_color0
    base_color1 := m.base_color1
    base_color2 := m.base_color2
    flags := 0 }

/-- The `Emissive` record created for the emission wrap. -/
def principledEmissiveMat (m : principled_mat_desc_t) : material_t :=
  { type := eShadingNode.Emissive
    base_texture := m.emission_texture
    base_color0 := m.emission_color0
    base_color1 := m.emission_color1
    base_color2 := m.emission_color2
    strength := m.emission_strength
    flags := 0 }

/-- The `Transparent` record created for the alpha wrap. -/
def principledTransparentMat : material_t :=
  { type := eShadingNode.Transparent }

/-- The `Mix` record with `MAT_FLAG_MIX_ADD` wrapping root and emissive
node. -/
def principledMixAddMat (root enode : Nat) : material_t :=
  { type := eShadingNode.Mix
    strength := 1/2
    flags := MAT_FLAG_MIX_ADD
    mix_mat1 := root
    mix_mat2 := enode }

/-- The regular `Mix` record wrapping the transparent node and the previous
root. -/
def principledMixAlphaMat (m : principled_mat_desc_t) (tnode root : Nat) : material_t :=
  { type := eShadingNode.Mix
    base_texture := m.alpha_texture
    strength := m.alpha
    flags := 0
    mix_mat1 := tnode
    mix_mat2 := root }

/-- The material store after `AddMaterial(principled)`. -/
def principledStore (mats : List material_t) (m : principled_mat_desc_t) :
    List material_t := (addMaterialPrincipled mats m).1

/-- The handle index returned by `AddMaterial(principled)`. -/
def principledRootIndex (mats : List material_t) (m : principled_mat_desc_t) :
    Nat := (addMaterialPrincipled mats m).2

/-- The node referenced by the handle returned by `AddMaterial(principled)`. -/
def principledNode (mats : List material_t) (m : principled_mat_desc_t) :
    material_t := (principledStore mats m).getD (principledRootIndex mats m) {}

/-- Whether a light record is a triangle light. -/
def isTriLight (l : light_t) : Bool := l.type = eLightType.Tri

/-- The emissive-triangle test of `AddMeshInstance`: the material directly
referenced by the triangle's front material index (the root of the front
material tree) is `Emissive` with `MAT_FLAG_MULT_IMPORTANCE`. -/
def triQualifies (st : SceneState) (tri : Nat) : Bool :=
  let front_mat := st.materials.getD
    ((st.tri_materials.getD tri {}).front_mi &&& MATERIAL_INDEX_BITS) {}
  front_mat.type = eShadingNode.Emissive &&
    decide (front_mat.flags &&& MAT_FLAG_MULT_IMPORTANCE ≠ 0)

/-- The triangle-light record `AddMeshInstance` pushes for a qualifying
triangle: transform index `xf` and colour `base_color * strength`. -/
def expectedTriLight (st : SceneState) (xf tri : Nat) : light_t :=
  let front_mat := st.materials.getD
    ((st.tri_materials.getD tri {}).front_mi &&& MATERIAL_INDEX_BITS) {}
  { type := eLightType.Tri
    cast_shadow := true
    visible := false
    sky_portal := false
    tri_index := tri
    xform_index := xf
    col0 := front_mat.base_color0 * front_mat.strength
    col1 := front_mat.base_color1 * front_mat.strength
    col2 := front_mat.base_color2 * front_mat.strength }

/-- A triangle light pointing at triangle `tri` through transform `xf`. -/
def triLightMatches (tri xf : Nat) (l : light_t) : Bool :=
  isTriLight l && decide (l.tri_index = tri) && decide (l.xform_index = xf)

/-- Number of qualifying triangles in the triangle range of mesh `mesh`. -/
def meshEmissiveCount (st : SceneState) (mesh : Nat) : Nat :=
  (meshTriRange (st.meshes.getD mesh {})).countP (triQualifies st)

/-- The lights appended by one `AddMeshInstance` call for mesh `mesh` with
fresh transform `tr`. -/
def newLightsFor (st : SceneState) (tr mesh : Nat) : List light_t :=
  (meshTriRange (st.meshes.getD mesh {})).filterMap (emissiveTriLight st tr)

/-- The lights appended by a sequence of `AddMeshInstance` calls starting
at transform counter `tr0` (each call consumes one fresh transform). -/
def addedLights (st : SceneState) : Nat → List (Nat × (Vec3q × Vec3q)) → List light_t
  | _, [] => []
  | tr0, c :: cs => newLightsFor st tr0 c.1 ++ addedLights st (tr0 + 1) cs

/-- The mesh instances appended by a sequence of `AddMeshInstance` calls. -/
def addedInstances : Nat → List (Nat × (Vec3q × Vec3q)) → List mesh_instance_t
  | _, [] => []
  | tr0, c :: cs =>
    { mesh_index := c.1, tr_index := tr0, bbox_min := c.2.1, bbox_max := c.2.2 } ::
      addedInstances (tr0 + 1) cs

/-- A sequence of `AddMeshInstance` calls (mesh handle plus the world AABB
computed for it), folded over the scene state. -/
def addMeshInstances (build : List prim_t → List bvh_node_t × List Nat)
    (st : SceneState) (calls : List (Nat × (Vec3q × Vec3q))) : SceneState :=
  calls.foldl (fun s c => (addMeshInstance build c.2 s c.1).1) st

/-!  Theorems.  -/

theorem getD_append_idx {α : Type _} (xs ys : List α) (d : α) (k j : Nat)
    (h : k = xs.length + j) : (xs ++ ys).getD k d = ys.getD j d := by
  subst h
  rw [List.getD_eq_getElem?_getD,
    List.getElem?_append_right (Nat.le_add_right _ _)]
  simp [List.getD_eq_getElem?_getD]

theorem getD_concat {α : Type _} (xs : List α) (a d : α) (k : Nat)
    (h : xs.length = k) : (xs ++ [a]).getD k d = a := by
  subst h
  rw [List.getD_eq_getElem?_getD, List.getElem?_append_right (Nat.le_refl _)]
  simp

theorem getD_append_lt {α : Type _} (xs ys : List α) (d : α) (i : Nat)
    (h : i < xs.length) : (xs ++ ys).getD i d = xs.getD i d := by
  rw [List.getD_eq_getElem?_getD, List.getElem?_append, if_pos h,
    ← List.getD_eq_getElem?_getD]

/-- C3 (counterexample): with `multiple_importance` set, an environment map
present, and env tint `(1, 0, 1)` — non-black in the claim's sense of "at
least one channel positive" — `Finalize` does not rebuild the env
quad-tree. -/
theorem C3_counterexample :
    (let e : environment_t :=
      { env_col0 := 1, env_col1 := 0, env_col2 := 1, env_map := 7,
        multiple_importance := true }
    (e.multiple_importance = true ∧ e.env_map ≠ InvalidTextureIndex ∧
        (0 < e.env_col0 ∨ 0 < e.env_col1 ∨ 0 < e.env_col2)) ∧
      finalizePreparesQTree e = false) := by
  refine ⟨⟨rfl, by decide, Or.inl (by norm_num)⟩, by decide⟩

/-- C5 uses rationals; C3 amended below: during `Finalize` the environment
quad-tree is prepared exactly when the `multiple_importance` flag is set,
all three channels of the env tint are strictly positive, and an
environment map is present. -/
theorem C3_finalize_qtree_condition (e : environment_t) :
    finalizePreparesQTree e = true ↔
      (e.multiple_importance = true ∧ 0 < e.env_col0 ∧ 0 < e.env_col1 ∧
        0 < e.env_col2 ∧ e.env_map ≠ InvalidTextureIndex) := by
  unfold finalizePreparesQTree
  by_cases h1 : e.multiple_importance = true ∧ 0 < e.env_col0 ∧ 0 < e.env_col1 ∧
      0 < e.env_col2
  · rw [if_pos h1]
    by_cases h2 : e.env_map ≠ InvalidTextureIndex
    · rw [if_pos h2]
      exact ⟨fun _ => ⟨h1.1, h1.2.1, h1.2.2.1, h1.2.2.2, h2⟩, fun _ => rfl⟩
    · rw [if_neg h2]
      exact ⟨fun h => absurd h (by decide), fun h => absurd h.2.2.2.2 h2⟩
  · rw [if_neg h1]
    constructor
    · intro h
      exact absurd h (by decide)
    · intro h
      exact absurd ⟨h.1, h.2.1, h.2.2.1, h.2.2.2.1⟩ h1

/-- Characterisation of the resolution-doubling loop: starting from
`res ≥ 1` with enough fuel, the result is `res` times a power of two,
satisfies `d ≤ 2 * result`, and either never moved or stayed below `d`. -/
theorem qtreeResLoop_spec (fuel : Nat) : ∀ d res : Nat, 1 ≤ res → d ≤ res + fuel →
    (∃ m, qtreeResLoop fuel d res = res * 2 ^ m) ∧
      d ≤ 2 * qtreeResLoop fuel d res ∧
      (qtreeResLoop fuel d res = res ∨ qtreeResLoop fuel d res < d) := by
  induction fuel with
  | zero =>
    intro d res h1 h2
    refine ⟨⟨0, by simp [qtreeResLoop]⟩, ?_, Or.inl rfl⟩
    simp only [qtreeResLoop]
    omega
  | succ n ih =>
    intro d res h1 h2
    by_cases hc : 2 * res < d
    · have hrw : qtreeResLoop (n + 1) d res = qtreeResLoop n d (2 * res) := by
        simp only [qtreeResLoop, if_pos hc]
      obtain ⟨⟨m, hm⟩, hle, hor⟩ := ih d (2 * res) (by omega) (by omega)
      rw [hrw]
      refine ⟨⟨m + 1, by rw [hm]; ring⟩, hle, Or.inr ?_⟩
      cases hor with
      | inl he => omega
      | inr hlt => exact hlt
    · have hrw : qtreeResLoop (n + 1) d res = res := by
        simp only [qtreeResLoop, if_neg hc]
      rw [hrw]
      exact ⟨⟨0, by ring⟩, by omega, Or.inl rfl⟩

/-- C4 (amended): for every environment map whose smaller dimension `d` is
at least 2, the quad-tree resolution computed by
`PrepareEnvMapQTree_nolock` is the largest power of two strictly below
`d` itself (the claim divides by two: the loop `while (2*res < d)` stops
at `res = d/2` for `d` a power of two, not below it). -/
theorem C4_qtree_res (d : Nat) (h : 2 ≤ d) :
    (∃ m, qtreeRes d = 2 ^ m) ∧ qtreeRes d < d ∧
      ∀ m2, 2 ^ m2 < d → 2 ^ m2 ≤ qtreeRes d := by
  obtain ⟨⟨m, hm⟩, hle, hor⟩ := qtreeResLoop_spec d d 1 (by omega) (by omega)
  unfold qtreeRes
  rw [one_mul] at hm
  have hlt : qtreeResLoop d d 1 < d := by
    cases hor with
    | inl he => omega
    | inr hlt => exact hlt
  refine ⟨⟨m, hm⟩, hlt, ?_⟩
  intro m2 hm2
  have h2 : 2 ^ m2 < 2 ^ (m + 1) := by
    have : (2 : Nat) ^ (m + 1) = 2 * 2 ^ m := by ring
    omega
  have hmle : m2 ≤ m := by
    have := (Nat.pow_lt_pow_iff_right (a := 2) (by norm_num)).mp h2
    omega
  rw [hm]
  exact Nat.pow_le_pow_right (by norm_num) hmle

/-- C4 (witness for the amended theorem): at `d = 16` the hypotheses hold
and the resolution evaluates to 8. -/
theorem C4_witness :
    2 ≤ 16 ∧ qtreeRes 16 = 8 ∧
      ((∃ m, qtreeRes 16 = 2 ^ m) ∧ qtreeRes 16 < 16 ∧
        ∀ m2, 2 ^ m2 < 16 → 2 ^ m2 ≤ qtreeRes 16) :=
  ⟨by norm_num, by decide, C4_qtree_res 16 (by norm_num)⟩

/-- C4 (counterexample): for a 16×16 map the claim asks for the largest
power of two strictly below `min(16,16)/2 = 8`, i.e. 4; the code computes
8, which is not strictly below 8. -/
theorem C4_counterexample :
    qtreeRes 16 = 8 ∧ ¬ qtreeRes 16 < 16 / 2 := by
  decide

/-- C8 (counterexample): a successful `AllocSubRegion` with an init buffer
whose tracked state (`Undefined`) differs from the required `CopySrc`
records neither a barrier nor the copy — the whole command block is
commented out on this backend — although both state fields are updated. -/
theorem C8_counterexample :
    allocSubRegionInit true eResState.Undefined eResState.Undefined =
      (eResState.CopySrc, eResState.CopyDst, []) ∧
      eResState.Undefined ≠ eResState.CopySrc := by
  exact ⟨rfl, by decide⟩

/-- C8 (amended): `UpdateSubRegion` and `CopyBufferToBuffer` emit a
transition barrier exactly for each participating buffer whose tracked
state differs from the required copy state, record the copy last, and set
the two state fields to `CopySrc`/`CopyDst`; `AllocSubRegion` (its
barrier/copy block being commented out on the D3D12 backend) records no
command at all but still sets both state fields. -/
theorem C8_barriers (s1 s2 : eResState) :
    ((updateSubRegion s1 s2).1 = eResState.CopySrc ∧
      (updateSubRegion s1 s2).2.1 = eResState.CopyDst ∧
      (BufCmd.barrierSrc s1 eResState.CopySrc ∈ (updateSubRegion s1 s2).2.2 ↔
        s1 ≠ eResState.CopySrc) ∧
      (BufCmd.barrierDst s2 eResState.CopyDst ∈ (updateSubRegion s1 s2).2.2 ↔
        s2 ≠ eResState.CopyDst) ∧
      (updateSubRegion s1 s2).2.2.getLast? = some BufCmd.copyRegion) ∧
    ((copyBufferToBuffer s1 s2).1 = eResState.CopySrc ∧
      (copyBufferToBuffer s1 s2).2.1 = eResState.CopyDst ∧
      (BufCmd.barrierSrc s1 eResState.CopySrc ∈ (copyBufferToBuffer s1 s2).2.2 ↔
        s1 ≠ eResState.CopySrc) ∧
      (BufCmd.barrierDst s2 eResState.CopyDst ∈ (copyBufferToBuffer s1 s2).2.2 ↔
        s2 ≠ eResState.CopyDst) ∧
      (copyBufferToBuffer s1 s2).2.2.getLast? = some BufCmd.copyRegion) ∧
    (allocSubRegionInit true s1 s2 =
      (eResState.CopySrc, eResState.CopyDst, [])) := by
  cases s1 <;> cases s2 <;> decide

/-- C9 (amended): when the packed-atlas first-mip allocation fails,
`AddAtlasTexture_nolock` returns the `InvalidTextureHandle` sentinel and
returns normally having emitted no log entry at all (in particular no
warning). -/
theorem C9_alloc_failure (textures_size : Nat) (td : tex_desc_t) :
    addAtlasTexture none textures_size td = (InvalidTextureIndex, []) := by
  rfl

/-- C9 (counterexample): a failing allocation returns the sentinel with an
empty log — no entry at warning level is produced, contrary to the claim. -/
theorem C9_counterexample :
    addAtlasTexture none 0 { w := 4, h := 4 } = (InvalidTextureIndex, []) ∧
      LogLevel.Warning ∉ (addAtlasTexture none 0 { w := 4, h := 4 }).2 := by
  exact ⟨rfl, by decide⟩

/-- C10 (confirmed): `AddLight(directional)` always stores the light record
with `visible = false`, yet appends the fresh light index to
`visible_lights_` exactly when the descriptor's `visible` flag is set. -/
theorem C10_directional_visible (piq : Rat) (tanq : Rat → Rat)
    (st : LightsState) (l : directional_light_desc_t) :
    ((addLightDirectional piq tanq st l).1.lights.getD
        (addLightDirectional piq tanq st l).2 {}).visible = false ∧
    ((addLightDirectional piq tanq st l).1.lights.getD
        (addLightDirectional piq tanq st l).2 {}).type = eLightType.Dir ∧
    (addLightDirectional piq tanq st l).1.visible_lights =
      st.visible_lights ++
        (if l.visible then [(addLightDirectional piq tanq st l).2] else []) ∧
    (addLightDirectional piq tanq st l).2 = st.lights.length := by
  refine ⟨?_, ?_, rfl, rfl⟩ <;>
    rw [show (addLightDirectional piq tanq st l).2 = st.lights.length from rfl] <;>
    rw [show (addLightDirectional piq tanq st l).1.lights =
        st.lights ++ [_] from rfl] <;>
    rw [getD_concat _ _ _ _ rfl]

theorem addMaterialPrincipled_noE_noA (mats : List material_t)
    (m : principled_mat_desc_t) (hE : ¬ emissionEnabled m) (hA : ¬ alphaEnabled m) :
    addMaterialPrincipled mats m = (mats ++ [principledMainMat m], mats.length) := by
  simp only [emissionEnabled] at hE
  simp only [alphaEnabled] at hA
  simp only [addMaterialPrincipled, addMaterial_nolock, if_neg hE, if_neg hA]
  split_ifs <;>
    first
      | (simp [principledMainMat, principledEmissiveMat, principledTransparentMat,
          principledMixAddMat, principledMixAlphaMat, MAT_FLAG_MIX_ADD]
         done)
      | contradiction
      | (exfalso
         simp only [List.length_append, List.length_cons, List.length_nil,
           InvalidMaterialIndex, ne_eq, not_or] at *
         first
           | omega
           | simp_all
           | (rename_i hor
              rcases hor with hbad | hbad
              · omega
              · exact ha0 hbad))

theorem addMaterialPrincipled_E_noA (mats : List material_t)
    (m : principled_mat_desc_t) (hE : emissionEnabled m) (hA : ¬ alphaEnabled m)
    (hlen : mats.length + 4 ≤ InvalidMaterialIndex) :
    addMaterialPrincipled mats m =
      (mats ++ [principledMainMat m, principledEmissiveMat m,
        principledMixAddMat mats.length (mats.length + 1)], mats.length + 2) := by
  simp only [emissionEnabled] at hE
  simp only [alphaEnabled] at hA
  simp only [addMaterialPrincipled, addMaterial_nolock, if_pos hE, if_neg hA]
  split_ifs <;>
    first
      | (simp [principledMainMat, principledEmissiveMat, principledTransparentMat,
          principledMixAddMat, principledMixAlphaMat, MAT_FLAG_MIX_ADD]
         done)
      | contradiction
      | (exfalso
         simp only [List.length_append, List.length_cons, List.length_nil,
           InvalidMaterialIndex, ne_eq, not_or] at *
         first
           | omega
           | simp_all
           | (rename_i hor
              rcases hor with hbad | hbad
              · omega
              · exact ha0 hbad))

theorem addMaterialPrincipled_noE_A (mats : List material_t)
    (m : principled_mat_desc_t) (hE : ¬ emissionEnabled m) (hA : alphaEnabled m)
    (ha0 : ¬ m.alpha = 0) (hlen : mats.length + 4 ≤ InvalidMaterialIndex) :
    addMaterialPrincipled mats m =
      (mats ++ [principledMainMat m, principledTransparentMat,
        principledMixAlphaMat m (mats.length + 1) mats.length], mats.length + 2) := by
  simp only [emissionEnabled] at hE
  simp only [alphaEnabled] at hA
  simp only [addMaterialPrincipled, addMaterial_nolock, if_neg hE, if_pos hA]
  split_ifs <;>
    first
      | (simp [principledMainMat, principledEmissiveMat, principledTransparentMat,
          principledMixAddMat, principledMixAlphaMat, MAT_FLAG_MIX_ADD]
         done)
      | contradiction
      | (exfalso
         simp only [List.length_append, List.length_cons, List.length_nil,
           InvalidMaterialIndex, ne_eq, not_or] at *
         first
           | omega
           | simp_all
           | (rename_i hor
              rcases hor with hbad | hbad
              · omega
              · exact ha0 hbad))

theorem addMaterialPrincipled_noE_A0 (mats : List material_t)
    (m : principled_mat_desc_t) (hE : ¬ emissionEnabled m) (ha0 : m.alpha = 0)
    (hlen : mats.length + 4 ≤ InvalidMaterialIndex) :
    addMaterialPrincipled mats m =
      (mats ++ [principledMainMat m, principledTransparentMat], mats.length + 1) := by
  have hA : alphaEnabled m := Or.inl (by rw [ha0]; norm_num)
  simp only [emissionEnabled] at hE
  simp only [alphaEnabled] at hA
  simp only [addMaterialPrincipled, addMaterial_nolock, if_neg hE, if_pos hA, ha0]
  split_ifs <;>
    first
      | (simp [principledMainMat, principledEmissiveMat, principledTransparentMat,
          principledMixAddMat, principledMixAlphaMat, MAT_FLAG_MIX_ADD]
         done)
      | contradiction
      | (exfalso
         simp only [List.length_append, List.length_cons, List.length_nil,
           InvalidMaterialIndex, ne_eq, not_or] at *
         first
           | omega
           | simp_all
           | (rename_i hor
              rcases hor with hbad | hbad
              · omega
              · exact ha0 hbad))

theorem addMaterialPrincipled_E_A (mats : List material_t)
    (m : principled_mat_desc_t) (hE : emissionEnabled m) (hA : alphaEnabled m)
    (ha0 : ¬ m.alpha = 0) (hlen : mats.length + 4 ≤ InvalidMaterialIndex) :
    addMaterialPrincipled mats m =
      (mats ++ [principledMainMat m, principledEmissiveMat m,
        principledTransparentMat,
        principledMixAddMat mats.length (mats.length + 1),
        principledMixAlphaMat m (mats.length + 2) (mats.length + 3)],
        mats.length + 4) := by
  simp only [emissionEnabled] at hE
  simp only [alphaEnabled] at hA
  simp only [addMaterialPrincipled, addMaterial_nolock, if_pos hE, if_pos hA]
  split_ifs <;>
    first
      | (simp [principledMainMat, principledEmissiveMat, principledTransparentMat,
          principledMixAddMat, principledMixAlphaMat, MAT_FLAG_MIX_ADD]
         done)
      | contradiction
      | (exfalso
         simp only [List.length_append, List.length_cons, List.length_nil,
           InvalidMaterialIndex, ne_eq, not_or] at *
         first
           | omega
           | simp_all
           | (rename_i hor
              rcases hor with hbad | hbad
              · omega
              · exact ha0 hbad))

theorem addMaterialPrincipled_E_A0 (mats : List material_t)
    (m : principled_mat_desc_t) (hE : emissionEnabled m) (ha0 : m.alpha = 0)
    (hlen : mats.length + 4 ≤ InvalidMaterialIndex) :
    addMaterialPrincipled mats m =
      (mats ++ [principledMainMat m, principledEmissiveMat m,
        principledTransparentMat,
        principledMixAddMat mats.length (mats.length + 1)], mats.length + 2) := by
  have hA : alphaEnabled m := Or.inl (by rw [ha0]; norm_num)
  simp only [emissionEnabled] at hE
  simp only [alphaEnabled] at hA
  simp only [addMaterialPrincipled, addMaterial_nolock, if_pos hE, if_pos hA, ha0]
  split_ifs <;>
    first
      | (simp [principledMainMat, principledEmissiveMat, principledTransparentMat,
          principledMixAddMat, principledMixAlphaMat, MAT_FLAG_MIX_ADD]
         done)
      | contradiction
      | (exfalso
         simp only [List.length_append, List.length_cons, List.length_nil,
           InvalidMaterialIndex, ne_eq, not_or] at *
         first
           | omega
           | simp_all
           | (rename_i hor
              rcases hor with hbad | hbad
              · omega
              · exact ha0 hbad))

/-- C6 (amended): `AddMaterial(principled)` returns a handle to the
outermost node of the composite it builds: a `Principled` root; wrapped in
a `Mix` node carrying `MAT_FLAG_MIX_ADD` (children: the previous root and
the fresh `Emissive` node) when the descriptor sets emission; wrapped in a
regular `Mix` node (children: the fresh `Transparent` node and the
previous root) when the descriptor sets non-unit alpha or an alpha
texture — EXCEPT that when `alpha == 0` exactly, the `Transparent` node
replaces the root and is returned directly, with no `Mix` wrapper. -/
theorem C6_principled_composite (mats : List material_t)
    (m : principled_mat_desc_t)
    (hlen : mats.length + 4 ≤ InvalidMaterialIndex) :
    (¬ emissionEnabled m → ¬ alphaEnabled m →
      (principledNode mats m).type = eShadingNode.Principled) ∧
    (emissionEnabled m → ¬ alphaEnabled m →
      (principledNode mats m).type = eShadingNode.Mix ∧
      (principledNode mats m).flags &&& MAT_FLAG_MIX_ADD ≠ 0 ∧
      ((principledStore mats m).getD (principledNode mats m).mix_mat1 {}).type =
        eShadingNode.Principled ∧
      ((principledStore mats m).getD (principledNode mats m).mix_mat2 {}).type =
        eShadingNode.Emissive) ∧
    (¬ emissionEnabled m → alphaEnabled m → ¬ m.alpha = 0 →
      (principledNode mats m).type = eShadingNode.Mix ∧
      (principledNode mats m).flags &&& MAT_FLAG_MIX_ADD = 0 ∧
      ((principledStore mats m).getD (principledNode mats m).mix_mat1 {}).type =
        eShadingNode.Transparent ∧
      ((principledStore mats m).getD (principledNode mats m).mix_mat2 {}).type =
        eShadingNode.Principled) ∧
    (emissionEnabled m → alphaEnabled m → ¬ m.alpha = 0 →
      (principledNode mats m).type = eShadingNode.Mix ∧
      (principledNode mats m).flags &&& MAT_FLAG_MIX_ADD = 0 ∧
      ((principledStore mats m).getD (principledNode mats m).mix_mat1 {}).type =
        eShadingNode.Transparent ∧
      ((principledStore mats m).getD (principledNode mats m).mix_mat2 {}).type =
        eShadingNode.Mix ∧
      ((principledStore mats m).getD (principledNode mats m).mix_mat2 {}).flags &&&
        MAT_FLAG_MIX_ADD ≠ 0) ∧
    (m.alpha = 0 →
      (principledNode mats m).type = eShadingNode.Transparent) := by
  refine ⟨?_, ?_, ?_, ?_, ?_⟩
  · intro hE hA
    simp only [principledNode, principledStore, principledRootIndex,
      addMaterialPrincipled_noE_noA mats m hE hA]
    rw [getD_append_idx mats _ _ _ 0 (by omega)]
    rfl
  · intro hE hA
    simp only [principledNode, principledStore, principledRootIndex,
      addMaterialPrincipled_E_noA mats m hE hA hlen]
    rw [getD_append_idx mats _ _ _ 2 (by omega)]
    simp only [List.getD_cons_succ, List.getD_cons_zero, principledMixAddMat]
    refine ⟨by trivial, by decide, ?_, ?_⟩
    · rw [getD_append_idx mats _ _ _ 0 (by omega)]
      rfl
    · rw [getD_append_idx mats _ _ _ 1 (by omega)]
      rfl
  · intro hE hA ha0
    simp only [principledNode, principledStore, principledRootIndex,
      addMaterialPrincipled_noE_A mats m hE hA ha0 hlen]
    rw [getD_append_idx mats _ _ _ 2 (by omega)]
    simp only [List.getD_cons_succ, List.getD_cons_zero, principledMixAlphaMat]
    refine ⟨by trivial, by decide, ?_, ?_⟩
    · rw [getD_append_idx mats _ _ _ 1 (by omega)]
      rfl
    · rw [getD_append_idx mats _ _ _ 0 (by omega)]
      rfl
  · intro hE hA ha0
    simp only [principledNode, principledStore, principledRootIndex,
      addMaterialPrincipled_E_A mats m hE hA ha0 hlen]
    rw [getD_append_idx mats _ _ _ 4 (by omega)]
    simp only [List.getD_cons_succ, List.getD_cons_zero, principledMixAlphaMat]
    refine ⟨by trivial, by decide, ?_, ?_, ?_⟩
    · rw [getD_append_idx mats _ _ _ 2 (by omega)]
      rfl
    · rw [getD_append_idx mats _ _ _ 3 (by omega)]
      rfl
    · rw [getD_append_idx mats _ _ _ 3 (by omega)]
      simp only [List.getD_cons_succ, List.getD_cons_zero, principledMixAddMat]
      decide
  · intro ha0
    by_cases hE : emissionEnabled m
    · simp only [principledNode, principledStore, principledRootIndex,
        addMaterialPrincipled_E_A0 mats m hE ha0 hlen]
      rw [getD_append_idx mats _ _ _ 2 (by omega)]
      rfl
    · simp only [principledNode, principledStore, principledRootIndex,
        addMaterialPrincipled_noE_A0 mats m hE ha0 hlen]
      rw [getD_append_idx mats _ _ _ 1 (by omega)]
      rfl

/-- C6 (witness): a descriptor with emission and alpha 1/2 instantiates the
amended theorem on the empty store. -/
theorem C6_witness :
    (([] : List material_t).length + 4 ≤ InvalidMaterialIndex) ∧
    (let m : principled_mat_desc_t :=
      { emission_color0 := 1, emission_strength := 2, alpha := 1/2 }
    emissionEnabled m ∧ alphaEnabled m ∧ ¬ m.alpha = 0 ∧
    ((principledNode [] m).type = eShadingNode.Mix ∧
      (principledNode [] m).flags &&& MAT_FLAG_MIX_ADD = 0 ∧
      ((principledStore [] m).getD (principledNode [] m).mix_mat1 {}).type =
        eShadingNode.Transparent ∧
      ((principledStore [] m).getD (principledNode [] m).mix_mat2 {}).type =
        eShadingNode.Mix ∧
      ((principledStore [] m).getD (principledNode [] m).mix_mat2 {}).flags &&&
        MAT_FLAG_MIX_ADD ≠ 0)) := by
  refine ⟨by norm_num [InvalidMaterialIndex], ?_, ?_, ?_, ?_⟩
  · exact ⟨by norm_num, Or.inl (by norm_num)⟩
  · exact Or.inl (by norm_num)
  · norm_num
  · exact (C6_principled_composite []
      { emission_color0 := 1, emission_strength := 2, alpha := 1/2 }
      (by norm_num [InvalidMaterialIndex])).2.2.2.1
      ⟨by norm_num, Or.inl (by norm_num)⟩ (Or.inl (by norm_num)) (by norm_num)

/-- C6 (counterexample): with `alpha = 0` the returned handle references the
`Transparent` node itself — not a `Mix` node wrapping a Transparent node
and the previous root, as the claim states for any non-unit alpha. -/
theorem C6_counterexample :
    (let m : principled_mat_desc_t := { alpha := 0 }
    (m.alpha ≠ 1 ∨ m.alpha_texture ≠ InvalidTextureIndex) ∧
      (principledNode [] m).type = eShadingNode.Transparent ∧
      (principledNode [] m).type ≠ eShadingNode.Mix) := by
  refine ⟨Or.inl (by norm_num), ?_, ?_⟩
  · rw [show principledNode [] { alpha := 0 } =
      (principledStore [] { alpha := 0 }).getD
        (principledRootIndex [] { alpha := 0 }) {} from rfl]
    rw [show principledStore [] { alpha := 0 } =
        (addMaterialPrincipled [] { alpha := 0 }).1 from rfl,
      show principledRootIndex [] { alpha := 0 } =
        (addMaterialPrincipled [] { alpha := 0 }).2 from rfl,
      addMaterialPrincipled_noE_A0 [] { alpha := 0 }
        (by intro h; exact absurd h.2 (by norm_num)) rfl
        (by norm_num [InvalidMaterialIndex])]
    rfl
  · rw [show principledNode [] { alpha := 0 } =
      (principledStore [] { alpha := 0 }).getD
        (principledRootIndex [] { alpha := 0 }) {} from rfl]
    rw [show principledStore [] { alpha := 0 } =
        (addMaterialPrincipled [] { alpha := 0 }).1 from rfl,
      show principledRootIndex [] { alpha := 0 } =
        (addMaterialPrincipled [] { alpha := 0 }).2 from rfl,
      addMaterialPrincipled_noE_A0 [] { alpha := 0 }
        (by intro h; exact absurd h.2 (by norm_num)) rfl
        (by norm_num [InvalidMaterialIndex])]
    decide

/-- C2 (amended): a TLAS rebuild leaves the previous node array — including
any previous TLAS nodes — untouched in place (`RemoveNodes_nolock` is a
no-op, its body being commented out), builds a BVH over each instance's
world AABB through the SAH builder, appends the child-offset-fixed nodes
to the node array, and repoints `macro_nodes_start_`/`macro_nodes_count_`
at the appended subrange. -/
theorem C2_rebuild_appends (build : List prim_t → List bvh_node_t × List Nat)
    (st : SceneState) :
    removeNodes_nolock st st.macro_nodes_start st.macro_nodes_count = st ∧
    (rebuildTLAS_nolock build st).macro_nodes_start = st.nodes.length ∧
    (rebuildTLAS_nolock build st).nodes =
      st.nodes ++
        ((build (st.mesh_instances.map (fun mi =>
          { i0 := 0, i1 := 0, i2 := 0, bbox_min := mi.bbox_min,
            bbox_max := mi.bbox_max }))).1.map (offsetTLASNode st.nodes.length)) ∧
    (rebuildTLAS_nolock build st).macro_nodes_count =
      (build (st.mesh_instances.map (fun mi =>
        { i0 := 0, i1 := 0, i2 := 0, bbox_min := mi.bbox_min,
          bbox_max := mi.bbox_max }))).1.length ∧
    (rebuildTLAS_nolock build st).nodes.take st.nodes.length = st.nodes := by
  refine ⟨rfl, rfl, rfl, rfl, ?_⟩
  rw [show (rebuildTLAS_nolock build st).nodes = st.nodes ++
      ((build (st.mesh_instances.map (fun mi =>
        { i0 := 0, i1 := 0, i2 := 0, bbox_min := mi.bbox_min,
          bbox_max := mi.bbox_max }))).1.map (offsetTLASNode st.nodes.length))
    from rfl]
  exact List.take_left _ _

/-- C2 (counterexample): starting from a state whose node array holds the
TLAS of a previous rebuild (one node, `macro_nodes_start = 0`,
`macro_nodes_count = 1`), a second rebuild leaves that stale TLAS node at
index 0 of the global node array and merely points the root handle past
it — the previous TLAS nodes are not removed. -/
theorem C2_counterexample :
    (let n0 : bvh_node_t :=
      { bbox_min := { x := 1, y := 2, z := 3 }
        bbox_max := { x := 4, y := 5, z := 6 }
        prim_index := LEAF_NODE_BIT, prim_count := 1 }
    let st : SceneState :=
      { nodes := [n0], macro_nodes_start := 0, macro_nodes_count := 1
        mesh_instances := [{ mesh_index := 0, tr_index := 0 }] }
    let build : List prim_t → List bvh_node_t × List Nat := fun _ =>
      ([{ prim_index := LEAF_NODE_BIT, prim_count := 1 }], [0])
    (rebuildTLAS_nolock build st).nodes.length = 2 ∧
      (rebuildTLAS_nolock build st).nodes.getD 0 {} = n0 ∧
      (rebuildTLAS_nolock build st).macro_nodes_start = 1) := by
  exact ⟨rfl, rfl, rfl⟩

theorem solidBitTest (f : Nat) (h : f < 2 ^ 14) :
    f &&& MATERIAL_SOLID_BIT = 0 ∧
    (f ||| MATERIAL_SOLID_BIT) &&& MATERIAL_SOLID_BIT = MATERIAL_SOLID_BIT := by
  have h15 : MATERIAL_SOLID_BIT = 2 ^ 15 := by decide
  constructor
  · rw [h15, Nat.and_two_pow,
      Nat.testBit_eq_false_of_lt (lt_trans h (by norm_num))]
    rfl
  · rw [h15, Nat.and_two_pow, Nat.testBit_lor, Nat.testBit_two_pow_self]
    simp

theorem treeContains_mix (s : MatStore) (p : material_t → Bool) (i : Nat)
    (hmix : (s.mats.getD i {}).type = eShadingNode.Mix) :
    treeContains s p i =
      (treeContains s p (s.mats.getD i {}).mix_mat1 ||
       treeContains s p (s.mats.getD i {}).mix_mat2) := by
  rw [treeContains]
  rw [dif_pos hmix]

theorem treeContains_leaf (s : MatStore) (p : material_t → Bool) (i : Nat)
    (hmix : ¬ (s.mats.getD i {}).type = eShadingNode.Mix) :
    treeContains s p i = p (s.mats.getD i {}) := by
  rw [treeContains]
  rw [dif_neg hmix]

theorem walkSolid_all (s : MatStore) (stack : List Nat) :
    walkSolid s stack =
      stack.all (fun i => !(treeContains s isTransparentLeaf i)) := by
  induction stack using walkSolid.induct s with
  | case1 =>
    rw [walkSolid.eq_1]
    rfl
  | case2 i rest hmix ih =>
    rw [walkSolid.eq_2, dif_pos hmix, ih]
    rw [List.all_cons, List.all_cons, List.all_cons,
      treeContains_mix s isTransparentLeaf i hmix]
    cases h1 : treeContains s isTransparentLeaf (s.mats.getD i {}).mix_mat1 <;>
      cases h2 : treeContains s isTransparentLeaf (s.mats.getD i {}).mix_mat2 <;>
      simp
  | case3 i rest hmix htr =>
    rw [walkSolid.eq_2, dif_neg hmix, if_pos htr]
    rw [List.all_cons, treeContains_leaf s isTransparentLeaf i hmix]
    have hb : isTransparentLeaf (s.mats.getD i {}) = true := by
      unfold isTransparentLeaf
      exact decide_eq_true htr
    rw [hb]
    rfl
  | case4 i rest hmix htr ih =>
    rw [walkSolid.eq_2, dif_neg hmix, if_neg htr, ih]
    rw [List.all_cons, treeContains_leaf s isTransparentLeaf i hmix]
    have hb : isTransparentLeaf (s.mats.getD i {}) = false := by
      unfold isTransparentLeaf
      exact decide_eq_false htr
    rw [hb]
    rfl

theorem foldl_set_getD_notmem {α : Type _} (v d : α) (tri : Nat) :
    ∀ (ps : List Nat) (arr : List α), tri ∉ ps →
      ((ps.foldl (fun a p => a.set p v) arr).getD tri d) = arr.getD tri d := by
  intro ps
  induction ps with
  | nil => intro arr _; rfl
  | cons p ps ih =>
    intro arr h
    rw [List.foldl_cons]
    rw [ih _ (fun hm => h (List.mem_cons_of_mem _ hm))]
    rw [List.getD_eq_getElem?_getD,
      List.getElem?_set_ne (fun he => h (by rw [he]; exact List.mem_cons_self _ _)),
      ← List.getD_eq_getElem?_getD]

theorem foldl_set_getD_mem {α : Type _} (v d : α) :
    ∀ (ps : List Nat) (arr : List α) (tri : Nat), tri ∈ ps → tri < arr.length →
      ((ps.foldl (fun a p => a.set p v) arr).getD tri d) = v := by
  intro ps
  induction ps with
  | nil => intro arr tri hm; cases hm
  | cons p ps ih =>
    intro arr tri hm hlt
    rw [List.foldl_cons]
    by_cases hmem : tri ∈ ps
    · exact ih _ _ hmem (by rw [List.length_set]; exact hlt)
    · have hp : tri = p := by
        rcases List.mem_cons.mp hm with h | h
        · exact h
        · exact absurd h hmem
      subst hp
      rw [foldl_set_getD_notmem _ _ _ _ _ hmem]
      rw [List.getD_eq_getElem?_getD, List.getElem?_set_eq_of_lt _ hlt]
      rfl

/-- C7 (confirmed): the Mix-descending material walk of `AddMesh` (total
for every store whose `Mix` children precede their parents, which the
builder guarantees by composing trees root-up) writes, for every triangle
slot of the shape's index range, a record whose per-side
`MATERIAL_SOLID_BIT` is cleared exactly when the side's material tree
contains a `Transparent` leaf. -/
theorem C7_solid_bit (s : MatStore) (sh : shape_desc_t)
    (hf : sh.front_mat < 2 ^ 14) (hb : sh.back_mat < 2 ^ 14)
    (arr : List tri_mat_data_t) (tri : Nat)
    (htri : tri ∈ shapeTriPositions sh.vtx_start sh.vtx_count)
    (hlen : tri < arr.length) :
    (writeShapeTriMats s sh arr).getD tri {} = shapeTriMat s sh ∧
    ((shapeTriMat s sh).front_mi &&& MATERIAL_SOLID_BIT = 0 ↔
      treeContains s isTransparentLeaf sh.front_mat = true) ∧
    ((shapeTriMat s sh).back_mi &&& MATERIAL_SOLID_BIT = 0 ↔
      treeContains s isTransparentLeaf sh.back_mat = true) := by
  refine ⟨?_, ?_, ?_⟩
  · unfold writeShapeTriMats
    exact foldl_set_getD_mem _ _ _ _ _ htri hlen
  · have hw : walkSolid s [sh.front_mat] =
        !(treeContains s isTransparentLeaf sh.front_mat) := by
      rw [walkSolid_all]
      simp
    rw [show (shapeTriMat s sh).front_mi = sh.front_mat |||
      (if walkSolid s [sh.front_mat] then MATERIAL_SOLID_BIT else 0) from rfl, hw]
    cases hc : treeContains s isTransparentLeaf sh.front_mat
    · rw [if_pos (by decide)]
      rw [(solidBitTest sh.front_mat hf).2]
      constructor
      · intro h; exact absurd h (by decide)
      · intro h; exact absurd h (by decide)
    · rw [if_neg (by decide)]
      rw [Nat.or_zero, (solidBitTest sh.front_mat hf).1]
      exact ⟨fun _ => rfl, fun _ => rfl⟩
  · have hw : walkSolid s [sh.back_mat] =
        !(treeContains s isTransparentLeaf sh.back_mat) := by
      rw [walkSolid_all]
      simp
    rw [show (shapeTriMat s sh).back_mi = sh.back_mat |||
      (if walkSolid s [sh.back_mat] then MATERIAL_SOLID_BIT else 0) from rfl, hw]
    cases hc : treeContains s isTransparentLeaf sh.back_mat
    · rw [if_pos (by decide)]
      rw [(solidBitTest sh.back_mat hb).2]
      constructor
      · intro h; exact absurd h (by decide)
      · intro h; exact absurd h (by decide)
    · rw [if_neg (by decide)]
      rw [Nat.or_zero, (solidBitTest sh.back_mat hb).1]
      exact ⟨fun _ => rfl, fun _ => rfl⟩

/-- C7 (witness): a three-node store — Transparent, Diffuse, and a Mix of
the two — with a one-triangle shape instantiates the theorem. -/
theorem C7_witness :
    (2 < 2 ^ 14 ∧ 1 < 2 ^ 14 ∧ 0 ∈ shapeTriPositions 0 3 ∧
      0 < [({} : tri_mat_data_t)].length) ∧
    (let s := MatStore.ofList
        [{ type := eShadingNode.Transparent }, {},
         { type := eShadingNode.Mix, mix_mat1 := 0, mix_mat2 := 1 }] (by decide)
     let sh : shape_desc_t :=
       { front_mat := 2, back_mat := 1, vtx_start := 0, vtx_count := 3 }
     (writeShapeTriMats s sh [{}]).getD 0 {} = shapeTriMat s sh ∧
     ((shapeTriMat s sh).front_mi &&& MATERIAL_SOLID_BIT = 0 ↔
       treeContains s isTransparentLeaf sh.front_mat = true) ∧
     ((shapeTriMat s sh).back_mi &&& MATERIAL_SOLID_BIT = 0 ↔
       treeContains s isTransparentLeaf sh.back_mat = true)) :=
  ⟨⟨by decide, by decide, by decide, by decide⟩,
    C7_solid_bit
      (MatStore.ofList
        [{ type := eShadingNode.Transparent }, {},
         { type := eShadingNode.Mix, mix_mat1 := 0, mix_mat2 := 1 }] (by decide))
      { front_mat := 2, back_mat := 1, vtx_start := 0, vtx_count := 3 }
      (by decide) (by decide) [{}] 0 (by decide) (by decide)⟩

theorem set_concat {α : Type _} (xs : List α) (a b : α) :
    (xs ++ [a]).set xs.length b = xs ++ [b] := by
  induction xs with
  | nil => rfl
  | cons x xs ih => simp [List.set, ih]

theorem emissiveTriLight_congr (st1 st2 : SceneState) (tr : Nat)
    (h1 : st1.materials = st2.materials)
    (h2 : st1.tri_materials = st2.tri_materials) :
    emissiveTriLight st1 tr = emissiveTriLight st2 tr := by
  funext tri
  unfold emissiveTriLight
  rw [h1, h2]

theorem addMeshInstance_char (build : List prim_t → List bvh_node_t × List Nat)
    (wb : Vec3q × Vec3q) (st : SceneState) (mesh : Nat) :
    (addMeshInstance build wb st mesh).1.materials = st.materials ∧
    (addMeshInstance build wb st mesh).1.meshes = st.meshes ∧
    (addMeshInstance build wb st mesh).1.tri_materials = st.tri_materials ∧
    (addMeshInstance build wb st mesh).1.tr_count = st.tr_count + 1 ∧
    (addMeshInstance build wb st mesh).1.lights =
      st.lights ++ newLightsFor st st.tr_count mesh ∧
    (addMeshInstance build wb st mesh).1.mesh_instances =
      st.mesh_instances ++
        [{ mesh_index := mesh, tr_index := st.tr_count, bbox_min := wb.1,
           bbox_max := wb.2 }] := by
  refine ⟨rfl, rfl, rfl, rfl, rfl, ?_⟩
  simp only [addMeshInstance, setMeshInstanceTransform_nolock, rebuildTLAS_nolock,
    removeNodes_nolock]
  rw [getD_concat _ _ _ _ rfl, set_concat]

theorem addedLights_congr (st1 st2 : SceneState)
    (h1 : st1.materials = st2.materials)
    (h2 : st1.tri_materials = st2.tri_materials)
    (h3 : st1.meshes = st2.meshes) :
    ∀ (calls : List (Nat × (Vec3q × Vec3q))) (tr0 : Nat),
      addedLights st1 tr0 calls = addedLights st2 tr0 calls := by
  intro calls
  induction calls with
  | nil => intro tr0; rfl
  | cons c cs ih =>
    intro tr0
    simp only [addedLights, newLightsFor]
    rw [h3, emissiveTriLight_congr st1 st2 tr0 h1 h2, ih]

theorem addMeshInstances_char (build : List prim_t → List bvh_node_t × List Nat) :
    ∀ (calls : List (Nat × (Vec3q × Vec3q))) (st : SceneState),
      (addMeshInstances build st calls).materials = st.materials ∧
      (addMeshInstances build st calls).meshes = st.meshes ∧
      (addMeshInstances build st calls).tri_materials = st.tri_materials ∧
      (addMeshInstances build st calls).tr_count = st.tr_count + calls.length ∧
      (addMeshInstances build st calls).lights =
        st.lights ++ addedLights st st.tr_count calls ∧
      (addMeshInstances build st calls).mesh_instances =
        st.mesh_instances ++ addedInstances st.tr_count calls := by
  intro calls
  induction calls with
  | nil =>
    intro st
    refine ⟨rfl, rfl, rfl, rfl, ?_, ?_⟩
    · show st.lights = st.lights ++ addedLights st st.tr_count []
      simp [addedLights]
    · show st.mesh_instances = st.mesh_instances ++ addedInstances st.tr_count []
      simp [addedInstances]
  | cons c cs ih =>
    intro st
    obtain ⟨hm, hme, htm, htr, hl, hmi⟩ := addMeshInstance_char build c.2 st c.1
    obtain ⟨im, ime, itm, itr, il, imi⟩ := ih (addMeshInstance build c.2 st c.1).1
    have hfold : addMeshInstances build st (c :: cs) =
        addMeshInstances build (addMeshInstance build c.2 st c.1).1 cs := rfl
    rw [hfold]
    refine ⟨by rw [im, hm], by rw [ime, hme], by rw [itm, htm], ?_, ?_, ?_⟩
    · rw [itr, htr, List.length_cons]
      omega
    · rw [il, hl, htr,
        addedLights_congr (addMeshInstance build c.2 st c.1).1 st hm htm hme]
      show (st.lights ++ newLightsFor st st.tr_count c.1) ++
          addedLights st (st.tr_count + 1) cs =
        st.lights ++ addedLights st st.tr_count (c :: cs)
      rw [List.append_assoc]
      rfl
    · rw [imi, hmi, htr]
      rw [List.append_assoc]
      rfl

theorem emissiveTriLight_eq (st : SceneState) (tr tri : Nat) :
    emissiveTriLight st tr tri =
      (if triQualifies st tri = true then some (expectedTriLight st tr tri)
       else none) := by
  simp only [emissiveTriLight, triQualifies, expectedTriLight]
  by_cases hc : (st.materials.getD
        ((st.tri_materials.getD tri {}).front_mi &&& MATERIAL_INDEX_BITS) {}).type =
          eShadingNode.Emissive ∧
      (st.materials.getD
        ((st.tri_materials.getD tri {}).front_mi &&& MATERIAL_INDEX_BITS) {}).flags &&&
          MAT_FLAG_MULT_IMPORTANCE ≠ 0
  · rw [if_pos hc, if_pos (by
      simp only [Bool.and_eq_true, decide_eq_true_eq]
      exact ⟨hc.1, hc.2⟩)]
  · rw [if_neg hc, if_neg (by
      simp only [Bool.and_eq_true, decide_eq_true_eq]
      intro hcontra
      exact hc ⟨hcontra.1, hcontra.2⟩)]

theorem matches_expected (st : SceneState) (tr t tri xf : Nat) :
    triLightMatches tri xf (expectedTriLight st tr t) =
      (decide (t = tri) && decide (tr = xf)) := by
  simp [triLightMatches, isTriLight, expectedTriLight]

theorem newLights_countTri (st : SceneState) (tr : Nat) :
    ∀ lst : List Nat,
      (lst.filterMap (emissiveTriLight st tr)).countP isTriLight =
        lst.countP (triQualifies st) := by
  intro lst
  induction lst with
  | nil => rfl
  | cons t ts ih =>
    rw [List.countP_cons]
    by_cases hq : triQualifies st t = true
    · rw [List.filterMap_cons, emissiveTriLight_eq, if_pos hq]
      rw [List.countP_cons, ih]
      rw [if_pos hq, if_pos (by simp [isTriLight, expectedTriLight])]
    · rw [List.filterMap_cons, emissiveTriLight_eq, if_neg hq]
      rw [ih, if_neg hq, Nat.add_zero]

theorem newLights_count_missX (st : SceneState) (tr tri xf : Nat) (hx : ¬ xf = tr) :
    ∀ lst : List Nat,
      (lst.filterMap (emissiveTriLight st tr)).countP (triLightMatches tri xf) = 0 := by
  intro lst
  induction lst with
  | nil => rfl
  | cons t ts ih =>
    by_cases hq : triQualifies st t = true
    · rw [List.filterMap_cons, emissiveTriLight_eq, if_pos hq]
      rw [List.countP_cons, ih, matches_expected]
      rw [if_neg (by
        simp only [Bool.and_eq_true, decide_eq_true_eq]
        intro h
        exact hx h.2.symm), Nat.add_zero]
    · rw [List.filterMap_cons, emissiveTriLight_eq, if_neg hq]
      exact ih

theorem newLights_count_missT (st : SceneState) (tr tri xf : Nat) :
    ∀ lst : List Nat, tri ∉ lst →
      (lst.filterMap (emissiveTriLight st tr)).countP (triLightMatches tri xf) = 0 := by
  intro lst
  induction lst with
  | nil => intro _; rfl
  | cons t ts ih =>
    intro hnm
    have ht : ¬ t = tri := fun h => hnm (by rw [h]; exact List.mem_cons_self _ _)
    have hts : tri ∉ ts := fun h => hnm (List.mem_cons_of_mem _ h)
    by_cases hq : triQualifies st t = true
    · rw [List.filterMap_cons, emissiveTriLight_eq, if_pos hq]
      rw [List.countP_cons, ih hts, matches_expected]
      rw [if_neg (by
        simp only [Bool.and_eq_true, decide_eq_true_eq]
        intro h
        exact ht h.1), Nat.add_zero]
    · rw [List.filterMap_cons, emissiveTriLight_eq, if_neg hq]
      exact ih hts

theorem newLights_count_hit (st : SceneState) (tr tri : Nat) :
    ∀ lst : List Nat, lst.Nodup → tri ∈ lst → triQualifies st tri = true →
      (lst.filterMap (emissiveTriLight st tr)).countP (triLightMatches tri tr) = 1 := by
  intro lst
  induction lst with
  | nil => intro _ hm; cases hm
  | cons t ts ih =>
    intro hnd hm hq
    obtain ⟨hnin, hnd2⟩ := List.nodup_cons.mp hnd
    rcases List.mem_cons.mp hm with heq | hmem
    · subst heq
      rw [List.filterMap_cons, emissiveTriLight_eq, if_pos hq]
      rw [List.countP_cons, newLights_count_missT st tr tri tr ts hnin,
        matches_expected]
      rw [if_pos (by simp)]
    · have ht : ¬ t = tri := fun h => hnin (h ▸ hmem)
      by_cases hqt : triQualifies st t = true
      · rw [List.filterMap_cons, emissiveTriLight_eq, if_pos hqt]
        rw [List.countP_cons, ih hnd2 hmem hq, matches_expected]
        rw [if_neg (by
          simp only [Bool.and_eq_true, decide_eq_true_eq]
          intro h
          exact ht h.1), Nat.add_zero]
      · rw [List.filterMap_cons, emissiveTriLight_eq, if_neg hqt]
        exact ih hnd2 hmem hq

theorem newLights_mem_eq (st : SceneState) (tr tri xf : Nat) :
    ∀ (lst : List Nat) (l : light_t), l ∈ lst.filterMap (emissiveTriLight st tr) →
      triLightMatches tri xf l = true → l = expectedTriLight st xf tri := by
  intro lst l hl hmt
  obtain ⟨t, _, he⟩ := List.mem_filterMap.mp hl
  rw [emissiveTriLight_eq] at he
  by_cases hq : triQualifies st t = true
  · rw [if_pos hq] at he
    injection he with he2
    subst he2
    rw [matches_expected] at hmt
    simp only [Bool.and_eq_true, decide_eq_true_eq] at hmt
    rw [hmt.1, hmt.2]
  · rw [if_neg hq] at he
    cases he

theorem newLights_xf (st : SceneState) (tr : Nat) (lst : List Nat) (l : light_t)
    (hl : l ∈ lst.filterMap (emissiveTriLight st tr)) :
    isTriLight l = true ∧ l.xform_index = tr := by
  obtain ⟨t, _, he⟩ := List.mem_filterMap.mp hl
  rw [emissiveTriLight_eq] at he
  by_cases hq : triQualifies st t = true
  · rw [if_pos hq] at he
    injection he with he2
    subst he2
    exact ⟨rfl, rfl⟩
  · rw [if_neg hq] at he
    cases he

theorem matches_xf (tri xf : Nat) (l : light_t)
    (h : triLightMatches tri xf l = true) : l.xform_index = xf := by
  simp only [triLightMatches, Bool.and_eq_true, decide_eq_true_eq] at h
  exact h.2

theorem addedLights_countTri (st : SceneState) :
    ∀ (calls : List (Nat × (Vec3q × Vec3q))) (tr0 : Nat),
      (addedLights st tr0 calls).countP isTriLight =
        (calls.map (fun c => meshEmissiveCount st c.1)).sum := by
  intro calls
  induction calls with
  | nil => intro tr0; rfl
  | cons c cs ih =>
    intro tr0
    simp only [addedLights, List.map_cons, List.sum_cons]
    rw [List.countP_append, ih, newLightsFor, newLights_countTri]
    rfl

theorem addedLights_xf_ge (st : SceneState) :
    ∀ (calls : List (Nat × (Vec3q × Vec3q))) (tr0 : Nat) (l : light_t),
      l ∈ addedLights st tr0 calls → tr0 ≤ l.xform_index := by
  intro calls
  induction calls with
  | nil => intro tr0 l hl; cases hl
  | cons c cs ih =>
    intro tr0 l hl
    rcases List.mem_append.mp hl with h | h
    · rw [(newLights_xf st tr0 _ l h).2]
    · exact Nat.le_of_succ_le ((ih (tr0 + 1) l h))

theorem addedLights_mem_eq (st : SceneState) :
    ∀ (calls : List (Nat × (Vec3q × Vec3q))) (tr0 : Nat) (l : light_t),
      l ∈ addedLights st tr0 calls → ∀ tri xf,
        triLightMatches tri xf l = true → l = expectedTriLight st xf tri := by
  intro calls
  induction calls with
  | nil => intro tr0 l hl; cases hl
  | cons c cs ih =>
    intro tr0 l hl tri xf hmt
    rcases List.mem_append.mp hl with h | h
    · exact newLights_mem_eq st tr0 tri xf _ l h hmt
    · exact ih (tr0 + 1) l h tri xf hmt

theorem addedLights_count_hit (st : SceneState) :
    ∀ (calls : List (Nat × (Vec3q × Vec3q))) (tr0 k : Nat), k < calls.length →
      ∀ tri, tri ∈ meshTriRange (st.meshes.getD (calls.getD k (0, ({}, {}))).1 {}) →
        triQualifies st tri = true →
        (addedLights st tr0 calls).countP (triLightMatches tri (tr0 + k)) = 1 := by
  intro calls
  induction calls with
  | nil => intro tr0 k hk; exact absurd hk (by simp)
  | cons c cs ih =>
    intro tr0 k hk tri hmem hq
    simp only [addedLights]
    rw [List.countP_append]
    cases k with
    | zero =>
      rw [Nat.add_zero]
      have h1 : (newLightsFor st tr0 c.1).countP (triLightMatches tri tr0) = 1 := by
        apply newLights_count_hit st tr0 tri _ _ _ hq
        · exact (List.nodup_range _).map (fun a b h => by omega)
        · exact hmem
      have h2 : (addedLights st (tr0 + 1) cs).countP (triLightMatches tri tr0) = 0 := by
        apply List.countP_eq_zero.mpr
        intro l hl hmt
        have := addedLights_xf_ge st cs (tr0 + 1) l hl
        rw [matches_xf tri tr0 l hmt] at this
        omega
      rw [h1, h2]
    | succ k2 =>
      have h1 : (newLightsFor st tr0 c.1).countP
          (triLightMatches tri (tr0 + (k2 + 1))) = 0 := by
        apply newLights_count_missX st tr0 tri _ (by omega)
      have h2 : (addedLights st (tr0 + 1) cs).countP
          (triLightMatches tri (tr0 + (k2 + 1))) = 1 := by
        have he : tr0 + (k2 + 1) = (tr0 + 1) + k2 := by omega
        rw [he]
        exact ih (tr0 + 1) k2 (by simpa using hk) tri hmem hq
      rw [h1, h2]

theorem addedInstances_getD :
    ∀ (calls : List (Nat × (Vec3q × Vec3q))) (tr0 k : Nat), k < calls.length →
      ((addedInstances tr0 calls).getD k {}).tr_index = tr0 + k := by
  intro calls
  induction calls with
  | nil => intro tr0 k hk; exact absurd hk (by simp)
  | cons c cs ih =>
    intro tr0 k hk
    cases k with
    | zero => rfl
    | succ k2 =>
      show ((addedInstances (tr0 + 1) cs).getD k2 {}).tr_index = tr0 + (k2 + 1)
      rw [ih (tr0 + 1) k2 (by simpa using hk)]
      omega

/-- C1 (amended): after every sequence of `AddMeshInstance` calls on a
scene with no pre-existing triangle lights, the number of triangle lights
equals the number of triangles whose front material (the root node
referenced by the triangle's front material index) is `Emissive` with
`MULT_IMPORTANCE`, summed across all instances; and for each instance and
each such triangle of its mesh exactly one triangle light points at that
triangle through the instance's transform index, carrying
`base_color * strength`. -/
theorem C1_emissive_tri_lights (build : List prim_t → List bvh_node_t × List Nat)
    (st0 : SceneState) (calls : List (Nat × (Vec3q × Vec3q)))
    (h0 : ∀ l ∈ st0.lights, isTriLight l = false) :
    ((addMeshInstances build st0 calls).lights.countP isTriLight =
      (calls.map (fun c => meshEmissiveCount st0 c.1)).sum) ∧
    (∀ k, k < calls.length → ∀ tri,
      tri ∈ meshTriRange (st0.meshes.getD (calls.getD k (0, ({}, {}))).1 {}) →
      triQualifies st0 tri = true →
      ((addMeshInstances build st0 calls).mesh_instances.getD
          (st0.mesh_instances.length + k) {}).tr_index = st0.tr_count + k ∧
      (addMeshInstances build st0 calls).lights.countP
        (triLightMatches tri (st0.tr_count + k)) = 1 ∧
      (∀ l ∈ (addMeshInstances build st0 calls).lights,
        triLightMatches tri (st0.tr_count + k) l = true →
        l = expectedTriLight st0 (st0.tr_count + k) tri)) := by
  obtain ⟨hm, hme, htm, htr, hl, hmi⟩ := addMeshInstances_char build calls st0
  have hold0 : st0.lights.countP isTriLight = 0 :=
    List.countP_eq_zero.mpr (fun l hl2 => by simp [h0 l hl2])
  constructor
  · rw [hl, List.countP_append, hold0, addedLights_countTri]
    omega
  · intro k hk tri hmem hq
    refine ⟨?_, ?_, ?_⟩
    · rw [hmi, getD_append_idx _ _ _ _ k rfl]
      exact addedInstances_getD calls st0.tr_count k hk
    · rw [hl, List.countP_append]
      have hz : st0.lights.countP (triLightMatches tri (st0.tr_count + k)) = 0 := by
        apply List.countP_eq_zero.mpr
        intro l hl2 hmt
        simp only [triLightMatches, h0 l hl2] at hmt
        simp at hmt
      rw [hz, addedLights_count_hit st0 calls st0.tr_count k hk tri hmem hq]
    · intro l hl2 hmt
      rw [hl] at hl2
      rcases List.mem_append.mp hl2 with hcase | hcase
      · exfalso
        simp only [triLightMatches, h0 l hcase] at hmt
        simp at hmt
      · exact addedLights_mem_eq st0 calls st0.tr_count l hcase tri _ hmt

/-- C1 (witness): one instance of a one-triangle mesh whose front material
is `Emissive` with `MULT_IMPORTANCE`. -/
theorem C1_witness :
    (let st0 : SceneState :=
      { materials := [{ type := eShadingNode.Emissive, flags := MAT_FLAG_MULT_IMPORTANCE, strength := 2, base_color0 := 1, base_color1 := 0, base_color2 := 0 }]
        meshes := [{ vert_index := 0, vert_count := 3 }]
        tri_materials := [{ front_mi := 0, back_mi := 0 }] }
    let build : List prim_t → List bvh_node_t × List Nat := fun _ => ([], [])
    let calls : List (Nat × (Vec3q × Vec3q)) := [(0, ({}, {}))]
    (∀ l ∈ st0.lights, isTriLight l = false) ∧
    (((addMeshInstances build st0 calls).lights.countP isTriLight =
      (calls.map (fun c => meshEmissiveCount st0 c.1)).sum) ∧
    (∀ k, k < calls.length → ∀ tri,
      tri ∈ meshTriRange (st0.meshes.getD (calls.getD k (0, ({}, {}))).1 {}) →
      triQualifies st0 tri = true →
      ((addMeshInstances build st0 calls).mesh_instances.getD
          (st0.mesh_instances.length + k) {}).tr_index = st0.tr_count + k ∧
      (addMeshInstances build st0 calls).lights.countP
        (triLightMatches tri (st0.tr_count + k)) = 1 ∧
      (∀ l ∈ (addMeshInstances build st0 calls).lights,
        triLightMatches tri (st0.tr_count + k) l = true →
        l = expectedTriLight st0 (st0.tr_count + k) tri)))) :=
  ⟨fun l hl => absurd hl (List.not_mem_nil l),
    C1_emissive_tri_lights _ _ _ (fun l hl => absurd hl (List.not_mem_nil l))⟩

/-- C1 (counterexample to the claim as stated): a triangle whose front
material is a `Mix` node over an `Emissive`-with-`MULT_IMPORTANCE` child —
so its material TREE contains such a node — receives no triangle light:
the discovery loop inspects only the root node of the front material. -/
theorem C1_counterexample :
    (let mats : List material_t :=
      [{ type := eShadingNode.Emissive, flags := MAT_FLAG_MULT_IMPORTANCE, strength := 1, base_color0 := 1, base_color1 := 1, base_color2 := 1 },
       {},
       { type := eShadingNode.Mix, mix_mat1 := 0, mix_mat2 := 1 }]
    let st0 : SceneState :=
      { materials := mats
        meshes := [{ vert_index := 0, vert_count := 3 }]
        tri_materials := [{ front_mi := 2, back_mi := 2 }] }
    let build : List prim_t → List bvh_node_t × List Nat := fun _ => ([], [])
    treeContains (MatStore.ofList mats (by decide)) isEmissiveMI 2 = true ∧
      (addMeshInstance build ({}, {}) st0 0).1.lights.countP isTriLight = 0) := by
  constructor
  · rw [treeContains_mix _ _ 2 (by decide)]
    simp only [MatStore.ofList, List.getD_cons_succ, List.getD_cons_zero]
    rw [treeContains_leaf _ _ 0 (by decide), treeContains_leaf _ _ 1 (by decide)]
    decide
  · rfl

theorem getD_drop {α : Type _} (l : List α) (i j : Nat) (d : α) :
    (l.drop i).getD j d = l.getD (i + j) d := by
  rw [List.getD_eq_getElem?_getD, List.getElem?_drop, ← List.getD_eq_getElem?_getD]

theorem getD_mem {α : Type _} (l : List α) (i : Nat) (d : α) (h : i < l.length) :
    l.getD i d ∈ l := by
  rw [List.getD_eq_getElem _ _ h]
  exact List.getElem_mem h

theorem two_pow_succ_div_two (s : Nat) : 2 ^ (s + 1) / 2 = 2 ^ s := by
  rw [pow_succ]
  exact Nat.mul_div_cancel _ (by norm_num)

theorem qtreeUpperLevels_spec :
    ∀ (s fuel : Nat) (prev : List Vec4q), s ≤ fuel →
      qtreeUpperLevels fuel prev (2 ^ s) = qtreePyramidSpec s prev := by
  intro s
  induction s with
  | zero =>
    intro fuel prev _
    cases fuel with
    | zero => rfl
    | succ f =>
      show (if 1 < 2 ^ 0 then _ else []) = qtreePyramidSpec 0 prev
      rw [if_neg (by norm_num)]
      rfl
  | succ s ih =>
    intro fuel prev hs
    cases fuel with
    | zero => omega
    | succ f =>
      show (if 1 < 2 ^ (s + 1) then
          mkMip prev (2 ^ (s + 1) / 2) ::
            qtreeUpperLevels f (mkMip prev (2 ^ (s + 1) / 2)) (2 ^ (s + 1) / 2)
        else []) = qtreePyramidSpec (s + 1) prev
      rw [if_pos (Nat.one_lt_two_pow (by omega)), two_pow_succ_div_two]
      rw [ih f (mkMip prev (2 ^ s)) (by omega)]
      rfl

theorem qtreePyramidSpec_length :
    ∀ (s : Nat) (prev : List Vec4q), (qtreePyramidSpec s prev).length = s := by
  intro s
  induction s with
  | zero => intro prev; rfl
  | succ s ih =>
    intro prev
    show (mkMip prev (2 ^ s) :: qtreePyramidSpec s (mkMip prev (2 ^ s))).length = s + 1
    rw [List.length_cons, ih]

theorem pyramid_chain :
    ∀ (s : Nat) (prev : List Vec4q) (j : Nat), j + 1 ≤ s →
      (prev :: qtreePyramidSpec s prev).getD (j + 1) [] =
        mkMip ((prev :: qtreePyramidSpec s prev).getD j []) (2 ^ (s - 1 - j)) := by
  intro s
  induction s with
  | zero => intro prev j hj; omega
  | succ s ih =>
    intro prev j hj
    cases j with
    | zero =>
      show (qtreePyramidSpec (s + 1) prev).getD 0 [] =
        mkMip prev (2 ^ (s + 1 - 1 - 0))
      rfl
    | succ j2 =>
      have hj2 : j2 + 1 ≤ s := by omega
      have he : s + 1 - 1 - (j2 + 1) = s - 1 - j2 := by omega
      rw [he]
      rw [List.getD_cons_succ, List.getD_cons_succ]
      show (qtreePyramidSpec (s + 1) prev).getD (j2 + 1) [] =
        mkMip ((qtreePyramidSpec (s + 1) prev).getD j2 []) (2 ^ (s - 1 - j2))
      show ((mkMip prev (2 ^ s)) :: qtreePyramidSpec s (mkMip prev (2 ^ s))).getD
          (j2 + 1) [] =
        mkMip (((mkMip prev (2 ^ s)) ::
          qtreePyramidSpec s (mkMip prev (2 ^ s))).getD j2 []) (2 ^ (s - 1 - j2))
      exact ih (mkMip prev (2 ^ s)) j2 hj2

theorem mkMip_length (prev : List Vec4q) (h : Nat) :
    (mkMip prev h).length = h * h := by
  rw [mkMip, List.length_map, List.length_range]

theorem mkMip_getD (prev : List Vec4q) (h qx qy c : Nat)
    (hqx : qx < h) (hqy : qy < h) (hc : c < 4) :
    ((mkMip prev h).getD (qy * h + qx) {}).get c =
      (prev.getD ((2 * qy + c / 2) * (2 * h) + (2 * qx + c % 2)) {}).total := by
  have h0 : 0 < h := by omega
  have hidx : qy * h + qx < h * h := by
    have h1 : qy + 1 ≤ h := hqy
    calc qy * h + qx < qy * h + h := by omega
      _ = (qy + 1) * h := by ring
      _ ≤ h * h := Nat.mul_le_mul_right h h1
  have hlen : qy * h + qx < (mkMip prev h).length := by
    rw [mkMip_length]; exact hidx
  have hcell : (mkMip prev h).getD (qy * h + qx) {} =
      qtreeParentCell prev h ((qy * h + qx) % h) ((qy * h + qx) / h) := by
    rw [List.getD_eq_getElem _ _ hlen]
    simp [mkMip, List.getElem_map, List.getElem_range]
  rw [hcell]
  have e1 : (qy * h + qx) % h = qx := by
    rw [Nat.add_comm, Nat.add_mul_mod_self_right, Nat.mod_eq_of_lt hqx]
  have e2 : (qy * h + qx) / h = qy := by
    rw [Nat.add_comm, Nat.add_mul_div_right _ _ h0, Nat.div_eq_of_lt hqx,
      Nat.zero_add]
  rw [e1, e2]
  rcases c with _ | _ | _ | _ | c
  · rfl
  · rfl
  · rfl
  · rfl
  · omega

theorem total_eq_gets (v : Vec4q) :
    v.total = v.get 0 + v.get 1 + v.get 2 + v.get 3 := rfl

theorem getD_total_nonneg (prev : List Vec4q)
    (hp : ∀ v ∈ prev, ∀ c, c < 4 → 0 ≤ v.get c) (idx : Nat) :
    0 ≤ (prev.getD idx {}).total := by
  by_cases hlt : idx < prev.length
  · have hm := getD_mem prev idx {} hlt
    rw [total_eq_gets]
    have h0 := hp _ hm 0 (by omega)
    have h1 := hp _ hm 1 (by omega)
    have h2 := hp _ hm 2 (by omega)
    have h3 := hp _ hm 3 (by omega)
    positivity
  · rw [List.getD_eq_default _ _ (Nat.le_of_not_lt hlt)]
    norm_num [Vec4q.total]

theorem mkMip_nonneg (prev : List Vec4q) (h : Nat)
    (hp : ∀ v ∈ prev, ∀ c, c < 4 → 0 ≤ v.get c) :
    ∀ v ∈ mkMip prev h, ∀ c, c < 4 → 0 ≤ v.get c := by
  intro v hv c hc
  obtain ⟨idx, hidx, rfl⟩ := List.mem_map.mp hv
  rcases c with _ | _ | _ | _ | c
  · exact getD_total_nonneg prev hp _
  · exact getD_total_nonneg prev hp _
  · exact getD_total_nonneg prev hp _
  · exact getD_total_nonneg prev hp _
  · omega

theorem get_le_total (v : Vec4q) (hnn : ∀ c, c < 4 → 0 ≤ v.get c) :
    ∀ c, c < 4 → v.get c ≤ v.total := by
  have h0 : (0 : Rat) ≤ v.c0 := hnn 0 (by omega)
  have h1 : (0 : Rat) ≤ v.c1 := hnn 1 (by omega)
  have h2 : (0 : Rat) ≤ v.c2 := hnn 2 (by omega)
  have h3 : (0 : Rat) ≤ v.c3 := hnn 3 (by omega)
  intro c hc
  rcases c with _ | _ | _ | _ | c
  · show v.c0 ≤ v.total
    unfold Vec4q.total
    linarith
  · show v.c1 ≤ v.total
    unfold Vec4q.total
    linarith
  · show v.c2 ≤ v.total
    unfold Vec4q.total
    linarith
  · show v.c3 ≤ v.total
    unfold Vec4q.total
    linarith
  · omega

theorem mkMip_bound_down (prev : List Vec4q) (h : Nat) (B : Rat)
    (hh : 0 < h) (hlen : prev.length ≤ (2 * h) * (2 * h))
    (hp : ∀ v ∈ prev, ∀ c, c < 4 → 0 ≤ v.get c)
    (hb : ∀ v ∈ mkMip prev h, ∀ c, c < 4 → v.get c ≤ B) :
    ∀ v ∈ prev, ∀ c, c < 4 → v.get c ≤ B := by
  intro v hv c hc
  obtain ⟨j, hjl, hje⟩ := List.getElem_of_mem hv
  have hW : 0 < 2 * h := by omega
  have hx : j % (2 * h) < 2 * h := Nat.mod_lt _ hW
  have hy : j / (2 * h) < 2 * h := by
    apply Nat.div_lt_of_lt_mul
    omega
  have hqx : j % (2 * h) / 2 < h := by omega
  have hqy : j / (2 * h) / 2 < h := by omega
  have hcp : (j / (2 * h) % 2) * 2 + (j % (2 * h) % 2) < 4 := by omega
  have hidx : (j / (2 * h) / 2) * h + (j % (2 * h) / 2) < h * h := by
    have h1 : j / (2 * h) / 2 + 1 ≤ h := hqy
    calc (j / (2 * h) / 2) * h + (j % (2 * h) / 2) <
          (j / (2 * h) / 2) * h + h := by omega
      _ = (j / (2 * h) / 2 + 1) * h := by ring
      _ ≤ h * h := Nat.mul_le_mul_right h h1
  have hmlen : (j / (2 * h) / 2) * h + (j % (2 * h) / 2) < (mkMip prev h).length := by
    rw [mkMip_length]; exact hidx
  have hmem := getD_mem (mkMip prev h) ((j / (2 * h) / 2) * h + (j % (2 * h) / 2)) {} hmlen
  have hcomp := hb _ hmem ((j / (2 * h) % 2) * 2 + (j % (2 * h) % 2)) hcp
  rw [mkMip_getD prev h _ _ _ hqx hqy hcp] at hcomp
  have e1 : (2 * (j / (2 * h) / 2) + ((j / (2 * h) % 2) * 2 + j % (2 * h) % 2) / 2) *
        (2 * h) + (2 * (j % (2 * h) / 2) + ((j / (2 * h) % 2) * 2 + j % (2 * h) % 2) % 2)
      = j := by
    have d1 : ((j / (2 * h) % 2) * 2 + j % (2 * h) % 2) / 2 = j / (2 * h) % 2 := by
      omega
    have d2 : ((j / (2 * h) % 2) * 2 + j % (2 * h) % 2) % 2 = j % (2 * h) % 2 := by
      omega
    rw [d1, d2]
    have d3 : 2 * (j / (2 * h) / 2) + j / (2 * h) % 2 = j / (2 * h) := by omega
    have d4 : 2 * (j % (2 * h) / 2) + j % (2 * h) % 2 = j % (2 * h) := by omega
    rw [d3, d4]
    rw [Nat.mul_comm]
    exact Nat.div_add_mod j (2 * h)
  rw [e1] at hcomp
  have hgv : prev.getD j {} = v := by
    rw [List.getD_eq_getElem _ _ hjl, hje]
  rw [hgv] at hcomp
  calc v.get c ≤ v.total := get_le_total v (hp v hv) c hc
    _ ≤ B := hcomp

theorem not_subdiv_bound (t : Rat) (mip : List Vec4q)
    (h : mipRequiresSubdiv t mip = false) :
    ∀ v ∈ mip, ∀ c, c < 4 → v.get c ≤ t := by
  intro v hv c hc
  have h2 : cellAbove t v = false := by
    by_contra hb
    have hb2 : cellAbove t v = true := by
      cases hct : cellAbove t v
      · exact absurd hct hb
      · rfl
    have := List.any_eq_true.mpr ⟨v, hv, hb2⟩
    rw [mipRequiresSubdiv] at h
    rw [h] at this
    cases this
  simp only [cellAbove, Bool.or_eq_false_iff, decide_eq_false_iff_not, not_lt] at h2
  rcases c with _ | _ | _ | _ | c
  · exact h2.1.1.1
  · exact h2.1.1.2
  · exact h2.1.2
  · exact h2.2
  · omega

theorem lastRequiredLodGo_le (mips : List (List Vec4q)) (t : Rat) :
    ∀ n, lastRequiredLodGo mips t n ≤ n := by
  intro n
  induction n with
  | zero => exact Nat.le_refl 0
  | succ n ih =>
    show (if mipRequiresSubdiv t (mips.getD n []) then lastRequiredLodGo mips t n
      else n) ≤ n + 1
    split
    · omega
    · omega

theorem lastRequiredLodGo_succ_le (mips : List (List Vec4q)) (t : Rat) (n : Nat) :
    lastRequiredLodGo mips t (n + 1) ≤ n := by
  show (if mipRequiresSubdiv t (mips.getD n []) then lastRequiredLodGo mips t n
    else n) ≤ n
  split
  · exact lastRequiredLodGo_le mips t n
  · exact Nat.le_refl n

theorem lastRequiredLodGo_spec (mips : List (List Vec4q)) (t : Rat) :
    ∀ n, lastRequiredLodGo mips t n = 0 ∨
      mipRequiresSubdiv t (mips.getD (lastRequiredLodGo mips t n) []) = false := by
  intro n
  induction n with
  | zero => exact Or.inl rfl
  | succ n ih =>
    by_cases hs : mipRequiresSubdiv t (mips.getD n []) = true
    · have he : lastRequiredLodGo mips t (n + 1) = lastRequiredLodGo mips t n := by
        show (if mipRequiresSubdiv t (mips.getD n []) then _ else n) = _
        rw [hs]
        rfl
      rw [he]
      exact ih
    · have hf : mipRequiresSubdiv t (mips.getD n []) = false := by
        cases hct : mipRequiresSubdiv t (mips.getD n [])
        · rfl
        · exact absurd hct hs
      have he : lastRequiredLodGo mips t (n + 1) = n := by
        show (if mipRequiresSubdiv t (mips.getD n []) then _ else n) = n
        rw [hf]
        rfl
      rw [he]
      exact Or.inr hf

theorem pyramid_len (s : Nat) (mip0 : List Vec4q)
    (hlen : mip0.length = 2 ^ s * 2 ^ s) :
    ∀ j, j ≤ s → ((mip0 :: qtreePyramidSpec s mip0).getD j []).length =
      2 ^ (s - j) * 2 ^ (s - j) := by
  intro j
  induction j with
  | zero => intro _; simpa using hlen
  | succ j ih =>
    intro hj
    rw [pyramid_chain s mip0 j hj, mkMip_length,
      show s - (j + 1) = s - 1 - j from by omega]

theorem pyramid_nonneg (s : Nat) (mip0 : List Vec4q)
    (hnn : ∀ v ∈ mip0, ∀ c, c < 4 → 0 ≤ v.get c) :
    ∀ j, ∀ v ∈ (mip0 :: qtreePyramidSpec s mip0).getD j [], ∀ c, c < 4 →
      0 ≤ v.get c := by
  intro j
  induction j with
  | zero => exact hnn
  | succ j ih =>
    by_cases hj : j + 1 ≤ s
    · rw [pyramid_chain s mip0 j hj]
      exact mkMip_nonneg _ _ ih
    · rw [List.getD_eq_default _ _ (by
        rw [List.length_cons, qtreePyramidSpec_length]
        omega)]
      intro v hv
      cases hv

/-- C5: in the built environment quad-tree, every parent cell component at each
adjacent pair of retained levels equals the total (sum of the four components) of
the corresponding child cell of the finer level; and every cell component of each
level below the trim point is at most the luminance-fraction threshold (0.01)
times the total luminance of the base mip. -/
theorem C5_qtree_invariant (mip0 : List Vec4q) (side0 s : Nat)
    (hs : side0 = 2 ^ s) (hlen : mip0.length = side0 * side0)
    (hnn : ∀ v ∈ mip0, ∀ c, c < 4 → 0 ≤ v.get c) :
    (∀ j, j + 1 < (qtreeTrimmed mip0 side0).length →
      ∃ h, 0 < h ∧
        ∀ qx qy c, qx < h → qy < h → c < 4 →
          (((qtreeTrimmed mip0 side0).getD (j + 1) []).getD (qy * h + qx) {}).get c =
            (((qtreeTrimmed mip0 side0).getD j []).getD
              ((2 * qy + c / 2) * (2 * h) + (2 * qx + c % 2)) {}).total) ∧
    (∀ i, i < lastRequiredLod (qtreeMips mip0 side0)
        (LumFractThreshold * totalLum mip0) →
      ∀ v ∈ (qtreeMips mip0 side0).getD i [], ∀ c, c < 4 →
        v.get c ≤ LumFractThreshold * totalLum mip0) := by
  subst hs
  have hfuel : s ≤ 2 ^ s := Nat.le_of_lt (Nat.lt_two_pow s)
  have hmips : qtreeMips mip0 (2 ^ s) = mip0 :: qtreePyramidSpec s mip0 := by
    unfold qtreeMips
    rw [qtreeUpperLevels_spec s (2 ^ s) mip0 hfuel]
  have hmlen : (qtreeMips mip0 (2 ^ s)).length = s + 1 := by
    rw [hmips, List.length_cons, qtreePyramidSpec_length]
  set t := LumFractThreshold * totalLum mip0 with ht
  set lr := lastRequiredLod (qtreeMips mip0 (2 ^ s)) t with hlr
  have hfold : lastRequiredLodGo (qtreeMips mip0 (2 ^ s)) t
      ((qtreeMips mip0 (2 ^ s)).length) = lr := by
    rw [hlr]
    rfl
  have hlrle : lr ≤ s := by
    rw [← hfold, hmlen]
    exact lastRequiredLodGo_succ_le _ _ s
  have htrim : qtreeTrimmed mip0 (2 ^ s) = (qtreeMips mip0 (2 ^ s)).drop lr := rfl
  constructor
  · intro j hj
    have hjs : lr + j + 1 ≤ s := by
      rw [htrim, List.length_drop, hmlen] at hj
      omega
    refine ⟨2 ^ (s - 1 - (lr + j)), Nat.pos_pow_of_pos _ (by norm_num), ?_⟩
    intro qx qy c hqx hqy hc
    rw [htrim, getD_drop, getD_drop]
    have hchain := pyramid_chain s mip0 (lr + j) hjs
    rw [← hmips] at hchain
    rw [show lr + (j + 1) = (lr + j) + 1 from rfl, hchain]
    exact mkMip_getD _ _ qx qy c hqx hqy hc
  · rcases lastRequiredLodGo_spec (qtreeMips mip0 (2 ^ s)) t
        ((qtreeMips mip0 (2 ^ s)).length) with h0 | hns
    · rw [hfold] at h0
      intro i hi
      rw [h0] at hi
      omega
    · rw [hfold] at hns
      have haux : ∀ jj, jj ≤ lr →
          ∀ v ∈ (qtreeMips mip0 (2 ^ s)).getD (lr - jj) [], ∀ c, c < 4 →
            v.get c ≤ t := by
        intro jj
        induction jj with
        | zero =>
          intro _
          exact not_subdiv_bound t _ hns
        | succ jj ih =>
          intro hjj
          have hi1 : lr - (jj + 1) + 1 = lr - jj := by omega
          have hile : lr - (jj + 1) + 1 ≤ s := by omega
          have hchain := pyramid_chain s mip0 (lr - (jj + 1)) hile
          rw [← hmips] at hchain
          have hbound := ih (by omega)
          rw [← hi1] at hbound
          rw [hchain] at hbound
          have hplen : ((qtreeMips mip0 (2 ^ s)).getD (lr - (jj + 1)) []).length ≤
              (2 * 2 ^ (s - 1 - (lr - (jj + 1)))) * (2 * 2 ^ (s - 1 - (lr - (jj + 1)))) := by
            have h2 : 2 * 2 ^ (s - 1 - (lr - (jj + 1))) = 2 ^ (s - (lr - (jj + 1))) := by
              rw [show s - (lr - (jj + 1)) = (s - 1 - (lr - (jj + 1))) + 1 from by omega,
                pow_succ]
              ring
            rw [h2, hmips]
            rw [pyramid_len s mip0 hlen (lr - (jj + 1)) (by omega)]
          have hpnn : ∀ v ∈ (qtreeMips mip0 (2 ^ s)).getD (lr - (jj + 1)) [],
              ∀ c, c < 4 → 0 ≤ v.get c := by
            rw [hmips]
            exact pyramid_nonneg s mip0 hnn (lr - (jj + 1))
          exact mkMip_bound_down _ _ t (Nat.pos_pow_of_pos _ (by norm_num))
            hplen hpnn hbound
      intro i hi
      have := haux (lr - i) (by omega)
      rw [show lr - (lr - i) = i from by omega] at this
      exact this

theorem C5_witness :
    ((2 : Nat) = 2 ^ 1 ∧
      ([({ c0 := 1, c1 := 1, c2 := 1, c3 := 1 } : Vec4q),
        { c0 := 1, c1 := 1, c2 := 1, c3 := 1 },
        { c0 := 1, c1 := 1, c2 := 1, c3 := 1 },
        { c0 := 1, c1 := 1, c2 := 1, c3 := 1 }]).length = 2 * 2 ∧
      (∀ v ∈ [({ c0 := 1, c1 := 1, c2 := 1, c3 := 1 } : Vec4q),
        { c0 := 1, c1 := 1, c2 := 1, c3 := 1 },
        { c0 := 1, c1 := 1, c2 := 1, c3 := 1 },
        { c0 := 1, c1 := 1, c2 := 1, c3 := 1 }], ∀ c, c < 4 → 0 ≤ v.get c)) ∧
    ((∀ j, j + 1 < (qtreeTrimmed [({ c0 := 1, c1 := 1, c2 := 1, c3 := 1 } : Vec4q),
        { c0 := 1, c1 := 1, c2 := 1, c3 := 1 },
        { c0 := 1, c1 := 1, c2 := 1, c3 := 1 },
        { c0 := 1, c1 := 1, c2 := 1, c3 := 1 }] 2).length →
      ∃ h, 0 < h ∧
        ∀ qx qy c, qx < h → qy < h → c < 4 →
          (((qtreeTrimmed [({ c0 := 1, c1 := 1, c2 := 1, c3 := 1 } : Vec4q),
            { c0 := 1, c1 := 1, c2 := 1, c3 := 1 },
            { c0 := 1, c1 := 1, c2 := 1, c3 := 1 },
            { c0 := 1, c1 := 1, c2 := 1, c3 := 1 }] 2).getD (j + 1) []).getD
              (qy * h + qx) {}).get c =
            (((qtreeTrimmed [({ c0 := 1, c1 := 1, c2 := 1, c3 := 1 } : Vec4q),
              { c0 := 1, c1 := 1, c2 := 1, c3 := 1 },
              { c0 := 1, c1 := 1, c2 := 1, c3 := 1 },
              { c0 := 1, c1 := 1, c2 := 1, c3 := 1 }] 2).getD j []).getD
              ((2 * qy + c / 2) * (2 * h) + (2 * qx + c % 2)) {}).total) ∧
    (∀ i, i < lastRequiredLod (qtreeMips [({ c0 := 1, c1 := 1, c2 := 1, c3 := 1 } : Vec4q),
        { c0 := 1, c1 := 1, c2 := 1, c3 := 1 },
        { c0 := 1, c1 := 1, c2 := 1, c3 := 1 },
        { c0 := 1, c1 := 1, c2 := 1, c3 := 1 }] 2)
          (LumFractThreshold * totalLum [({ c0 := 1, c1 := 1, c2 := 1, c3 := 1 } : Vec4q),
        { c0 := 1, c1 := 1, c2 := 1, c3 := 1 },
        { c0 := 1, c1 := 1, c2 := 1, c3 := 1 },
        { c0 := 1, c1 := 1, c2 := 1, c3 := 1 }]) →
      ∀ v ∈ (qtreeMips [({ c0 := 1, c1 := 1, c2 := 1, c3 := 1 } : Vec4q),
        { c0 := 1, c1 := 1, c2 := 1, c3 := 1 },
        { c0 := 1, c1 := 1, c2 := 1, c3 := 1 },
        { c0 := 1, c1 := 1, c2 := 1, c3 := 1 }] 2).getD i [], ∀ c, c < 4 →
        v.get c ≤ LumFractThreshold * totalLum [({ c0 := 1, c1 := 1, c2 := 1, c3 := 1 } : Vec4q),
        { c0 := 1, c1 := 1, c2 := 1, c3 := 1 },
        { c0 := 1, c1 := 1, c2 := 1, c3 := 1 },
        { c0 := 1, c1 := 1, c2 := 1, c3 := 1 }])) :=
  ⟨⟨by norm_num, by decide, by decide⟩,
    C5_qtree_invariant _ 2 1 (by norm_num) (by decide) (by decide)⟩


end RayModel
